import Mathlib

/-!
# Verification of the call-log ingestion and analytics engine

Shallow embedding of `backend/app/api/apeluri.py` (queue-log parser and
daily statistics) and `backend/app/api/apeluri_trend.py` (CDR parser and
trend analysis), with theorems settling the specification claims.

Modelling conventions:
* Python `int` is `ℤ`; real-valued intermediate arithmetic (`statistics.mean`,
  float division, `round`) is modelled exactly over `ℚ`.
* Python strings are Lean `String`s; character-level helpers work on
  `List Char` so that everything reduces in the kernel.
* Python dicts keyed by call id are association lists in insertion order,
  matching Python's dict iteration order.
-/

set_option maxRecDepth 4000

namespace Cheltuieli

/-! ## Python primitive models -/

/-- Truncation toward zero: the semantics of Python `int(x)` on a number `x`. -/
def pytrunc (q : ℚ) : ℤ := if 0 ≤ q then ⌊q⌋ else ⌈q⌉

/-- Banker's rounding (round half to even): the semantics of Python `round(x)`. -/
def pyround (q : ℚ) : ℤ :=
  let f : ℤ := ⌊q⌋
  let r : ℚ := q - f
  if r < 1/2 then f
  else if 1/2 < r then f + 1
  else if f % 2 = 0 then f else f + 1

/-- Python `min(...)` over a list of integers (0 for the empty list, which the
source never reaches because every call site guards against emptiness). -/
def pymin : List ℤ → ℤ
  | [] => 0
  | x :: xs => xs.foldl min x

/-- Python `max(...)` over a list of integers (0 for the empty list, which the
source never reaches because every call site guards against emptiness). -/
def pymax : List ℤ → ℤ
  | [] => 0
  | x :: xs => xs.foldl max x

/-- Python `sorted(...)` on integers: a stable ascending sort. -/
def pysorted (l : List ℤ) : List ℤ := l.insertionSort (· ≤ ·)

/-- Exact value of `statistics.mean` (the source only calls it on nonempty lists). -/
def pymean (l : List ℤ) : ℚ := (l.sum : ℚ) / l.length

/-- Exact value of `statistics.median` on an already-sorted list: middle element,
or the average of the two middle elements for even length. -/
def pymedian (l : List ℤ) : ℚ :=
  let s := pysorted l
  let n := s.length
  if n % 2 = 1 then (s.getD (n / 2) 0 : ℚ)
  else ((s.getD (n / 2 - 1) 0 : ℚ) + (s.getD (n / 2) 0 : ℚ)) / 2

/-! ## The two percentile implementations

`percentile` is `apeluri.py` lines 19-28 (early return when `c >= n`);
`percentile_val` is `apeluri_trend.py` lines 94-100 (`c = min(f+1, n-1)`). -/

/-- Position `k = (len(sorted_list) - 1) * (p / 100)` shared by both percentile
implementations. -/
def interpK (n : ℕ) (p : ℚ) : ℚ := ((n : ℚ) - 1) * (p / 100)

/-- Lower interpolation index `f = int(k)` shared by both implementations. -/
def interpF (n : ℕ) (p : ℚ) : ℤ := pytrunc (interpK n p)

/-- The linear interpolation `sorted_list[f] + (k - f) * (sorted_list[c] - sorted_list[f])`
shared by both implementations. -/
def interpolate (l : List ℤ) (k : ℚ) (f c : ℤ) : ℚ :=
  (l.getD f.toNat 0 : ℚ) + (k - f) * ((l.getD c.toNat 0 : ℚ) - (l.getD f.toNat 0 : ℚ))

/-- `percentile` from `apeluri.py`: p-th percentile of a pre-sorted list, with an
early return of `sorted_list[f]` when the upper interpolation index `c = f + 1`
runs off the end of the list. -/
def percentile (sorted_list : List ℤ) (p : ℚ) : ℤ :=
  if sorted_list.length = 0 then 0
  else if (sorted_list.length : ℤ) ≤ interpF sorted_list.length p + 1 then
    sorted_list.getD (interpF sorted_list.length p).toNat 0
  else
    pytrunc (interpolate sorted_list (interpK sorted_list.length p)
      (interpF sorted_list.length p) (interpF sorted_list.length p + 1))

/-- `percentile_val` from `apeluri_trend.py`: same interpolation but with the
upper index clamped as `c = min(f + 1, n - 1)` and no early return. -/
def percentile_val (sorted_list : List ℤ) (p : ℚ) : ℤ :=
  if sorted_list.length = 0 then 0
  else
    pytrunc (interpolate sorted_list (interpK sorted_list.length p)
      (interpF sorted_list.length p)
      (min (interpF sorted_list.length p + 1) ((sorted_list.length : ℤ) - 1)))

/-! ## Character-level models of the Python string operations

All helpers work structurally on `List Char` so that every definition reduces
in the kernel. -/

/-- Whitespace characters recognised by Python `str.strip` / `int` (ASCII model). -/
def isPySpace (c : Char) : Bool :=
  c = ' ' || c = '\t' || c = '\n' || c = '\r' || c = '\x0b' || c = '\x0c'

/-- Python `str.strip()` on a character list. -/
def pyStripChars (cs : List Char) : List Char :=
  ((cs.dropWhile isPySpace).reverse.dropWhile isPySpace).reverse

/-- Python `str.strip()`. -/
def pyStrip (s : String) : String := ⟨pyStripChars s.data⟩

/-- Splitting on a single separator character, Python `str.split(sep)` semantics:
the empty string yields `[""]`, separators at the ends yield empty fields. -/
def splitCharAux (sep : Char) : List Char → List (List Char)
  | [] => [[]]
  | c :: rest =>
    match splitCharAux sep rest with
    | [] => [[]]
    | g :: gs => if c = sep then [] :: g :: gs else (c :: g) :: gs

/-- Python `s.split(sep)` for a one-character separator. -/
def pySplit (s : String) (sep : Char) : List String :=
  (splitCharAux sep s.data).map (fun g => String.mk g)

/-- Digit tail of a Python integer literal: digits with single interior
underscores allowed (`int("1_0") = 10`, `int("1__0")` and `int("1_")` fail). -/
def pyDigitsAux : ℕ → List Char → Option ℕ
  | acc, [] => some acc
  | acc, '_' :: rest =>
    match rest with
    | [] => none
    | c :: rest2 =>
      if c.isDigit then pyDigitsAux (10 * acc + (c.toNat - 48)) rest2 else none
  | acc, c :: rest =>
    if c.isDigit then pyDigitsAux (10 * acc + (c.toNat - 48)) rest else none

/-- Unsigned decimal literal: at least one digit, then `pyDigitsAux`. -/
def pyUnsigned : List Char → Option ℕ
  | [] => none
  | c :: rest => if c.isDigit then pyDigitsAux (c.toNat - 48) rest else none

/-- Signed decimal literal body (after whitespace stripping). -/
def pyIntCore : List Char → Option ℤ
  | '+' :: rest => (pyUnsigned rest).map (fun n => (n : ℤ))
  | '-' :: rest => (pyUnsigned rest).map (fun n => -(n : ℤ))
  | cs => (pyUnsigned cs).map (fun n => (n : ℤ))

/-- Python `int(s)` on a string: strips surrounding whitespace, then an optional
sign and a nonempty digit sequence; `none` models the `ValueError`. -/
def pyInt (s : String) : Option ℤ := pyIntCore (pyStripChars s.data)

/-- Leading-match test used to model Python `str.startswith`. -/
def leadMatch : List Char → List Char → Bool
  | [], _ => true
  | _ :: _, [] => false
  | p :: ps, c :: cs => p = c && leadMatch ps cs

/-- Python `s.startswith(pat)`. -/
def pyStartsWith (s pat : String) : Bool := leadMatch pat.data s.data

/-- Python `s.replace("SIP/", "")`: delete every non-overlapping occurrence,
scanning left to right. -/
def stripSIPChars : List Char → List Char
  | 'S' :: 'I' :: 'P' :: '/' :: rest => stripSIPChars rest
  | c :: rest => c :: stripSIPChars rest
  | [] => []

/-- Python `agent.replace("SIP/", "")`. -/
def stripSIP (s : String) : String := ⟨stripSIPChars s.data⟩

/-- Code-point lexicographic strict order on character lists, the comparison
Python uses on strings. -/
def lexLt : List Char → List Char → Bool
  | [], [] => false
  | [], _ :: _ => true
  | _ :: _, [] => false
  | a :: as, b :: bs =>
    if a.toNat < b.toNat then true
    else if b.toNat < a.toNat then false
    else lexLt as bs

/-- Python `a < b` on strings. -/
def strLt (a b : String) : Bool := lexLt a.data b.data

/-- Python `a <= b` on strings (total order: `a <= b` iff not `b < a`). -/
def strLe (a b : String) : Bool := ! strLt b a

/-- Zero-padded two-digit rendering, Python `f"{n:02d}"` for `0 ≤ n`. -/
def pad2 (n : ℕ) : String := if n < 10 then "0" ++ toString n else toString n

/-- Zero-padded four-digit rendering, Python `f"{n:04d}"` for `0 ≤ n`. -/
def pad4 (n : ℕ) : String :=
  if n < 10 then "000" ++ toString n
  else if n < 100 then "00" ++ toString n
  else if n < 1000 then "0" ++ toString n
  else toString n

/-- Wall-clock `"HH:MM:SS"` of a local timestamp `t` in seconds, the
`datetime.fromtimestamp(ts).strftime("%H:%M:%S")` rendering once the timezone
offset has been added to `ts`. -/
def fmtHMS (t : ℤ) : String :=
  pad2 ((t.ediv 3600).emod 24).toNat ++ ":" ++
    pad2 ((t.ediv 60).emod 60).toNat ++ ":" ++ pad2 (t.emod 60).toNat

/-! ## QueueLogParser: `parse_queue_log` from `apeluri.py`

The per-call dict is an association list in insertion order, matching Python
dict semantics.  The timezone offset `tz` (seconds to add to an epoch timestamp
to obtain local wall-clock time) is an explicit parameter standing for the
process-local timezone used by `datetime.fromtimestamp`. -/

/-- The per-call record built by `parse_queue_log` (`apeluri.py` lines 138-150). -/
structure CallState where
  callid : String
  queue : String
  caller_id : String
  agent : String
  status : String
  enter_time : Option ℤ
  connect_time : Option ℤ
  end_time : Option ℤ
  hold_time : ℤ
  call_time : ℤ
  events : List String
deriving DecidableEq

/-- Fresh record for a newly seen call id (`apeluri.py` lines 138-150). -/
def initCall (callid queuename : String) : CallState :=
  { callid := callid, queue := queuename, caller_id := "", agent := "", status := "",
    enter_time := none, connect_time := none, end_time := none,
    hold_time := 0, call_time := 0, events := [] }

/-- Event application, `apeluri.py` lines 159-200: the per-call state machine.
Every event name is appended to the record's event list. -/
def applyEvent (call : CallState) (ts : ℤ) (agent event : String)
    (data : List String) : CallState :=
  let call :=
    if event = "ENTERQUEUE" then
      let call := { call with enter_time := some ts }
      let call :=
        if 2 ≤ data.length then { call with caller_id := data.getD 1 "" } else call
      { call with status := "IN_QUEUE" }
    else if event = "CONNECT" then
      let call := { call with connect_time := some ts, agent := stripSIP agent }
      let call :=
        match data.head? with
        | none => call
        | some d0 =>
          match pyInt d0 with
          | some h => { call with hold_time := h }
          | none => call
      { call with status := "CONNECTED" }
    else if event = "COMPLETEAGENT" ∨ event = "COMPLETECALLER" then
      let call := { call with end_time := some ts, agent := stripSIP agent }
      let call :=
        if 2 ≤ data.length then
          match pyInt (data.getD 0 "") with
          | none => call
          | some h =>
            let call := { call with hold_time := h }
            match pyInt (data.getD 1 "") with
            | none => call
            | some ct => { call with call_time := ct }
        else call
      { call with status := "COMPLETAT" }
    else if event = "ABANDON" then
      let call := { call with end_time := some ts }
      let call :=
        if 3 ≤ data.length then
          match pyInt (data.getD 2 "") with
          | some h => { call with hold_time := h }
          | none => call
        else call
      { call with status := "ABANDONAT" }
    else if event = "RINGNOANSWER" then
      if call.status ≠ "COMPLETAT" ∧ call.status ≠ "ABANDONAT" then
        { call with status := "NEPRELUATE" }
      else call
    else call
  { call with events := call.events ++ [event] }

/-- Lookup in the insertion-ordered call dict. -/
def lookupCall : List (String × CallState) → String → Option CallState
  | [], _ => none
  | (k, v) :: rest, cid => if k = cid then some v else lookupCall rest cid

/-- In-place value update in the insertion-ordered call dict (Python dict
mutation preserves key order). -/
def updateCall : List (String × CallState) → String → (CallState → CallState) →
    List (String × CallState)
  | [], _, _ => []
  | (k, v) :: rest, cid, f =>
    if k = cid then (k, f v) :: rest else (k, v) :: updateCall rest cid f

/-- Processing of one queue-log line, `apeluri.py` lines 118-200.  Note that the
record for a fresh call id is inserted *before* the timestamp is parsed, so a
line with an unparsable timestamp still registers an empty record. -/
def processLine (calls : List (String × CallState)) (line : String) :
    List (String × CallState) :=
  let l := pyStrip line
  if l = "" then calls
  else
    let parts := pySplit l '|'
    if parts.length < 5 then calls
    else
      let timestamp := parts.getD 0 ""
      let callid := parts.getD 1 ""
      let queuename := parts.getD 2 ""
      let agent := parts.getD 3 ""
      let event := parts.getD 4 ""
      let data := parts.drop 5
      if callid = "NONE" ∨ event = "CONFIGRELOAD" then calls
      else
        let calls1 :=
          if (lookupCall calls callid).isNone then
            calls ++ [(callid, initCall callid queuename)]
          else calls
        match pyInt timestamp with
        | none => calls1
        | some ts => updateCall calls1 callid (fun c => applyEvent c ts agent event data)

/-- The call dict after all lines have been consumed. -/
def runLines (lines : List String) : List (String × CallState) :=
  lines.foldl processLine []

/-- End-of-file finalisation, `apeluri.py` lines 203-205. -/
def finalizeCall (c : CallState) : CallState :=
  if c.status = "IN_QUEUE" ∨ c.status = "CONNECTED" ∨ c.status = "" then
    { c with status := "IN_CURS" }
  else c

/-- One row of the result list, `apeluri.py` lines 211-220. -/
structure OutCall where
  callid : String
  queue : String
  caller_id : String
  agent : String
  status : String
  ora : String
  hold_time : ℤ
  call_time : ℤ
deriving DecidableEq

/-- Display-row construction, `apeluri.py` lines 209-220: `ora` is the local
wall-clock rendering of `enter_time` (empty when `enter_time` is `None` or `0`,
Python truthiness). -/
def mkOut (tz : ℤ) (c : CallState) : OutCall :=
  { callid := c.callid, queue := c.queue, caller_id := c.caller_id, agent := c.agent,
    status := c.status,
    ora := match c.enter_time with
      | none => ""
      | some t => if t = 0 then "" else fmtHMS (t + tz),
    hold_time := c.hold_time, call_time := c.call_time }

instance : DecidableRel (fun (a b : OutCall) => strLe b.ora a.ora = true) :=
  fun a b => inferInstanceAs (Decidable (strLe b.ora a.ora = true))

/-- Stable descending sort by the `ora` string, `apeluri.py` line 222
(`sort(key=..., reverse=True)` keeps equal keys in encounter order, as a stable
insertion sort under the reversed comparison does). -/
def sortCalls (cl : List OutCall) : List OutCall :=
  cl.insertionSort (fun a b => strLe b.ora a.ora = true)

/-- The sorted display list produced by `parse_queue_log` before statistics. -/
def callListOf (lines : List String) (tz : ℤ) : List OutCall :=
  sortCalls (((runLines lines).map (fun kv => finalizeCall kv.2)).map (mkOut tz))

/-! ## CallStatisticsEngine: `compute_stats` from `apeluri.py` -/

/-- Per-population time statistics, `apeluri.py` lines 42-51. -/
structure TimeStats where
  avg : ℤ
  median : ℤ
  p90 : ℤ
  min : ℤ
  max : ℤ
deriving DecidableEq

/-- `time_stats` from `apeluri.py` lines 42-51 (all zero on the empty list). -/
def time_stats (values : List ℤ) : TimeStats :=
  if values = [] then { avg := 0, median := 0, p90 := 0, min := 0, max := 0 }
  else
    { avg := pyround (pymean values), median := pyround (pymedian values),
      p90 := percentile values 90, min := pymin values, max := pymax values }

/-- Hour extraction from the display string, `apeluri.py` lines 62-68:
`int(ora.split(":")[0])`, skipped when `ora` is empty or unparsable. -/
def pyHour (ora : String) : Option ℤ :=
  if ora = "" then none else pyInt ((pySplit ora ':').getD 0 "")

/-- One row of the hourly breakdown, `apeluri.py` lines 84-93. -/
structure HourRow where
  hour : ℕ
  label : String
  total : ℕ
  answered : ℕ
  abandoned : ℕ
  answer_rate : ℤ
  abandon_rate : ℤ
  asa : ℤ
deriving DecidableEq

/-- Hourly breakdown, `apeluri.py` lines 56-93: buckets 0-23 only (the Python
dict is pre-initialised with exactly these keys; an hour outside 0-23 would
raise a `KeyError`, so results are only claimed for inputs whose display times
are well formed), empty hours omitted. -/
def hourlyRowsOf (cl : List OutCall) : List HourRow :=
  (List.range 24).filterMap (fun (h : ℕ) =>
    let inHour := cl.filter (fun c => pyHour c.ora == some (h : ℤ))
    if inHour.length = 0 then none
    else
      let answered := (inHour.filter (fun c => c.status == "COMPLETAT")).length
      let abandoned := (inHour.filter (fun c => c.status == "ABANDONAT")).length
      let hold_sum := ((inHour.filter (fun c => c.status == "COMPLETAT")).map
        (fun c => c.hold_time)).sum
      some { hour := h, label := pad2 h ++ ":00", total := inHour.length,
             answered := answered, abandoned := abandoned,
             answer_rate := pyround ((answered : ℚ) / inHour.length * 100),
             abandon_rate := pyround ((abandoned : ℚ) / inHour.length * 100),
             asa := if 0 < answered then pyround ((hold_sum : ℚ) / answered) else 0 })

/-- The aggregate daily statistics, `apeluri.py` lines 95-107. -/
structure Stats where
  total : ℕ
  answered : ℕ
  abandoned : ℕ
  answer_rate : ℤ
  abandon_rate : ℤ
  asa : ℤ
  waited_over_30 : ℕ
  hold_answered : TimeStats
  hold_abandoned : TimeStats
  call_duration : TimeStats
  hourly : List HourRow
deriving DecidableEq

/-- `compute_stats` from `apeluri.py` lines 31-107. -/
def compute_stats (call_list : List OutCall) : Stats :=
  let answered := call_list.filter (fun c => c.status == "COMPLETAT")
  let abandoned := call_list.filter (fun c => c.status == "ABANDONAT")
  let total := call_list.length
  let hold_answered := pysorted (answered.map (fun c => c.hold_time))
  let hold_abandoned := pysorted (abandoned.map (fun c => c.hold_time))
  let call_times :=
    pysorted ((answered.filter (fun c => decide (0 < c.call_time))).map
      (fun c => c.call_time))
  { total := total, answered := answered.length, abandoned := abandoned.length,
    answer_rate := if 0 < total then pyround ((answered.length : ℚ) / total * 100) else 0,
    abandon_rate := if 0 < total then pyround ((abandoned.length : ℚ) / total * 100) else 0,
    asa := if hold_answered ≠ [] then pyround (pymean hold_answered) else 0,
    waited_over_30 := (call_list.filter (fun c => decide (30 < c.hold_time))).length,
    hold_answered := time_stats hold_answered,
    hold_abandoned := time_stats hold_abandoned,
    call_duration := time_stats call_times,
    hourly := hourlyRowsOf call_list }

/-- Result of `parse_queue_log`, `apeluri.py` lines 230-235.  The status-count
summary dict is modelled by its count function (Python dict equality ignores
key order). -/
structure QLResult where
  summary : String → ℕ
  calls : List OutCall
  total : ℕ
  stats : Stats

/-- `parse_queue_log` from `apeluri.py` lines 110-235, over the file's lines,
with the local timezone offset `tz` as an explicit parameter. -/
def parse_queue_log (lines : List String) (tz : ℤ) : QLResult :=
  let cl := callListOf lines tz
  { summary := fun st => cl.countP (fun c => c.status == st),
    calls := cl, total := cl.length, stats := compute_stats cl }

/-! ## Calendar arithmetic

Support for `datetime.strptime`, `datetime.isocalendar` and datetime
comparison in `apeluri_trend.py`.  A naive datetime is its civil field tuple;
comparisons go through `toSecs` (lexicographic field order and second count
order agree). -/

/-- A naive Python `datetime` (microseconds are not produced by `strptime` with
the format used here and are ignored). -/
structure PyDateTime where
  year : ℕ
  month : ℕ
  day : ℕ
  hour : ℕ
  minute : ℕ
  second : ℕ
deriving DecidableEq

/-- Gregorian leap-year rule. -/
def isLeap (y : ℕ) : Bool := (y % 4 = 0 && y % 100 ≠ 0) || y % 400 = 0

/-- Length of a month. -/
def daysInMonth (y m : ℕ) : ℕ :=
  if m = 2 then (if isLeap y then 29 else 28)
  else if m = 4 ∨ m = 6 ∨ m = 9 ∨ m = 11 then 30
  else 31

/-- Days from the civil epoch 1970-01-01 (standard era-based conversion). -/
def daysFromCivil (y m d : ℕ) : ℤ :=
  let yAdj : ℤ := (y : ℤ) - (if m ≤ 2 then 1 else 0)
  let era : ℤ := yAdj.ediv 400
  let yoe : ℤ := yAdj - era * 400
  let mp : ℤ := ((m : ℤ) + 9) % 12
  let doy : ℤ := (153 * mp + 2).ediv 5 + (d : ℤ) - 1
  let doe : ℤ := yoe * 365 + yoe.ediv 4 - yoe.ediv 100 + doy
  era * 146097 + doe - 719468

/-- Seconds since the epoch of a naive datetime; the comparison order of Python
naive datetimes. -/
def toSecs (dt : PyDateTime) : ℤ :=
  daysFromCivil dt.year dt.month dt.day * 86400 +
    dt.hour * 3600 + dt.minute * 60 + dt.second

/-- ISO weekday, Monday = 1 .. Sunday = 7 (1970-01-01 was a Thursday). -/
def isoWeekday (y m d : ℕ) : ℤ := (daysFromCivil y m d + 3).emod 7 + 1

/-- Day of year, 1-based. -/
def dayOfYear (y m d : ℕ) : ℕ :=
  ((List.range (m - 1)).map (fun i => daysInMonth y (i + 1))).sum + d

/-- Helper for the 52/53-week rule. -/
def isoWeekP (y : ℕ) : ℕ := (y + y / 4 - y / 100 + y / 400) % 7

/-- Number of ISO weeks in year `y`. -/
def isoWeeksInYear (y : ℕ) : ℕ :=
  if isoWeekP y = 4 ∨ (1 ≤ y ∧ isoWeekP (y - 1) = 3) then 53 else 52

/-- ISO calendar (year, week) of a date, the first two components of Python's
`date.isocalendar()`. -/
def isoYearWeek (y m d : ℕ) : ℕ × ℕ :=
  let dow := isoWeekday y m d
  let w : ℤ := ((dayOfYear y m d : ℤ) - dow + 10).ediv 7
  if w < 1 then (y - 1, isoWeeksInYear (y - 1))
  else if (isoWeeksInYear y : ℤ) < w then (y + 1, 1)
  else (y, w.toNat)

/-! ## The `strptime` model

`datetime.strptime(s, "%Y-%m-%d %H:%M:%S")`: the CPython `_strptime` regex for
each directive admits one- or two-digit numbers (four digits for `%Y`), the
format's space matches any nonempty whitespace run, the whole string must be
consumed, and the resulting field tuple must form a valid datetime (which
rejects day overflow for the month and the leap seconds 60/61 that the `%S`
regex itself admits). -/

/-- Exactly four digits, as `%Y` requires. -/
def parse4Digits : List Char → Option (ℕ × List Char)
  | a :: b :: c :: d :: rest =>
    if a.isDigit && b.isDigit && c.isDigit && d.isDigit then
      some ((((a.toNat - 48) * 10 + (b.toNat - 48)) * 10 + (c.toNat - 48)) * 10 +
        (d.toNat - 48), rest)
    else none
  | _ => none

/-- One literal character. -/
def expectChar (c : Char) : List Char → Option (List Char)
  | x :: rest => if x = c then some rest else none
  | [] => none

/-- One-or-more whitespace characters (the format's literal space). -/
def skipWs1 : List Char → Option (List Char)
  | c :: rest => if isPySpace c then some (rest.dropWhile isPySpace) else none
  | [] => none

/-- A one- or two-digit numeric field: two digits are taken when their value
lies in `[lo2, hi2]`, otherwise a single digit with value at least `lo1` —
the acceptance set of each CPython `_strptime` directive regex. -/
def numField (lo1 lo2 hi2 : ℕ) : List Char → Option (ℕ × List Char)
  | [] => none
  | [c1] =>
    if c1.isDigit && lo1 ≤ c1.toNat - 48 then some (c1.toNat - 48, []) else none
  | c1 :: c2 :: rest =>
    if c1.isDigit then
      if c2.isDigit && lo2 ≤ (c1.toNat - 48) * 10 + (c2.toNat - 48) &&
          (c1.toNat - 48) * 10 + (c2.toNat - 48) ≤ hi2 then
        some ((c1.toNat - 48) * 10 + (c2.toNat - 48), rest)
      else if lo1 ≤ c1.toNat - 48 then some (c1.toNat - 48, c2 :: rest)
      else none
    else none

/-- `datetime.strptime(s, "%Y-%m-%d %H:%M:%S")`, `none` for `ValueError`. -/
def parseYmdHMS (s : String) : Option PyDateTime := do
  let cs := s.data
  let (y, cs) ← parse4Digits cs
  let cs ← expectChar '-' cs
  let (m, cs) ← numField 1 1 12 cs
  let cs ← expectChar '-' cs
  let (d, cs) ← numField 1 1 31 cs
  let cs ← skipWs1 cs
  let (h, cs) ← numField 0 0 23 cs
  let cs ← expectChar ':' cs
  let (mi, cs) ← numField 0 0 59 cs
  let cs ← expectChar ':' cs
  let (sec, cs) ← numField 0 0 61 cs
  if cs = [] ∧ 1 ≤ y ∧ d ≤ daysInMonth y m ∧ sec ≤ 59 then
    some { year := y, month := m, day := d, hour := h, minute := mi, second := sec }
  else none

/-! ## CdrParser: `parse_master_csv` from `apeluri_trend.py` -/

/-- One parsed CDR row, `apeluri_trend.py` lines 77-89. -/
structure CdrRow where
  src : String
  start : PyDateTime
  date : String
  hour : ℕ
  week : ℕ
  year_week : String
  duration : ℤ
  billsec : ℤ
  wait_time : ℤ
  disposition : String
  answered : Bool
deriving DecidableEq

/-- The age cutoff, `apeluri_trend.py` lines 39-41: `datetime.now() - timedelta(days)`
when `days` is given and truthy (`days = 0` is falsy in Python).  `now` is the
clock reading in local seconds, an explicit parameter. -/
def cutoffOf (days : Option ℤ) (now : ℤ) : Option ℤ :=
  match days with
  | none => none
  | some d => if d = 0 then none else some (now - d * 86400)

/-- Duration and billed seconds of a CDR row, both defaulting to 0 when either
fails to parse (`apeluri_trend.py` lines 67-72: one `try` block assigns both,
and the `except` resets both). -/
def dbOf (row : List String) : ℤ × ℤ :=
  match pyInt (row.getD 12 ""), pyInt (row.getD 13 "") with
  | some dv, some bv => (dv, bv)
  | _, _ => (0, 0)

/-- Per-row filtering and conversion, the body of the reader loop in
`apeluri_trend.py` lines 46-89. -/
def cdrRowOf (cutoff : Option ℤ) (row : List String) : Option CdrRow :=
  if row.length < 16 then none
  else if row.getD 7 "" ≠ "Queue" then none
  else if ¬ pyStartsWith (row.getD 8 "") "comenzi" then none
  else
    match parseYmdHMS (row.getD 9 "") with
    | none => none
    | some start_dt =>
      let cut : Bool :=
        match cutoff with
        | some c => decide (toSecs start_dt < c)
        | none => false
      if cut then none
      else
        let src := pyStrip (row.getD 1 "")
        if src = "" ∨ src.length < 4 then none
        else
          let db : ℤ × ℤ := dbOf row
          let iso := isoYearWeek start_dt.year start_dt.month start_dt.day
          some { src := src, start := start_dt,
                 date := pad4 start_dt.year ++ "-" ++ pad2 start_dt.month ++ "-" ++
                   pad2 start_dt.day,
                 hour := start_dt.hour, week := iso.2,
                 year_week := toString iso.1 ++ "-W" ++ pad2 iso.2,
                 duration := db.1, billsec := db.2,
                 wait_time := max (db.1 - db.2) 0,
                 disposition := pyStrip (row.getD 14 ""),
                 answered := pyStrip (row.getD 14 "") == "ANSWERED" }

/-- `parse_master_csv` from `apeluri_trend.py` lines 31-91, over the parsed CSV
rows, with the clock reading `now` as an explicit parameter. -/
def parse_master_csv (rows : List (List String)) (days : Option ℤ) (now : ℤ) :
    List CdrRow :=
  rows.filterMap (cdrRowOf (cutoffOf days now))

/-! ## TrendAnalyzer: `linear_trend` and the churn computation from
`apeluri_trend.py` -/

/-- Mean of the index list `x = [0, ..., n-1]` in `linear_trend`. -/
def xMean (n : ℕ) : ℚ := (((List.range n).map (fun i : ℕ => (i : ℚ))).sum) / n

/-- Mean of the value list in `linear_trend` (`y_mean`, also the spec's "mean"). -/
def specMean (v : List ℚ) : ℚ := v.sum / v.length

/-- The numerator `sum((xi - x_mean) * (yi - y_mean))` of the OLS slope in
`linear_trend`. -/
def olsNum (v : List ℚ) : ℚ :=
  ((((List.range v.length).map (fun i : ℕ => (i : ℚ))).zip v).map
    (fun xy => (xy.1 - xMean v.length) * (xy.2 - specMean v))).sum

/-- The denominator `sum((xi - x_mean) ** 2)` of the OLS slope in `linear_trend`. -/
def olsDen (n : ℕ) : ℚ :=
  ((List.range n).map (fun i : ℕ => ((i : ℚ) - xMean n) ^ 2)).sum

/-- The ordinary-least-squares slope named by the specification: `num / den`. -/
def specSlope (v : List ℚ) : ℚ := olsNum v / olsDen v.length

/-- `linear_trend` from `apeluri_trend.py` lines 103-124: ordinary least squares
slope of count against index, normalised by the mean, with an 8% relative
threshold.  Real arithmetic is modelled exactly over `ℚ`. -/
def linear_trend (values : List ℚ) : String :=
  if values.length < 3 then "stabil"
  else if olsDen values.length = 0 then "stabil"
  else if specMean values = 0 then "stabil"
  else if 8 / 100 < (olsNum values / olsDen values.length) / specMean values then "crestere"
  else if (olsNum values / olsDen values.length) / specMean values < -(8 / 100) then "scadere"
  else "stabil"

/-- First-occurrence deduplication: the key order of a Python dict built by
appending. -/
def dedupAux : List String → List String → List String
  | _, [] => []
  | seen, x :: xs =>
    if seen.contains x then dedupAux seen xs else x :: dedupAux (x :: seen) xs

/-- Keys of a Python `defaultdict` grouped by first occurrence. -/
def pyDedupKeys (l : List String) : List String := dedupAux [] l

instance : DecidableRel (fun (a b : String) => strLe a b = true) :=
  fun a b => inferInstanceAs (Decidable (strLe a b = true))

/-- `sorted(by_week.keys())`: the distinct `year_week` values in ascending
string order, `apeluri_trend.py` line 227. -/
def allWeeks (rows : List CdrRow) : List String :=
  (pyDedupKeys (rows.map (fun r => r.year_week))).insertionSort
    (fun a b => strLe a b = true)

/-- `recent_weeks`, `apeluri_trend.py` line 228: the last 4 observed weeks (all
weeks when fewer than 4 exist). -/
def recentWeeks (aw : List String) : List String :=
  if 4 ≤ aw.length then aw.drop (aw.length - 4) else aw

/-- `old_weeks`, `apeluri_trend.py` line 229: the first `max(len // 2, 1)`
observed weeks. -/
def oldWeeks (aw : List String) : List String := aw.take (max (aw.length / 2) 1)

/-- Python `min(...)` over strings (first element on ties; total order makes the
value independent of that choice). -/
def pyminStr : List String → String
  | [] => ""
  | x :: xs => xs.foldl (fun a b => if strLt b a then b else a) x

/-- Python `max(...)` over strings. -/
def pymaxStr : List String → String
  | [] => ""
  | x :: xs => xs.foldl (fun a b => if strLt a b then b else a) x

/-- Calls of one source grouped by week: `src_weekly.get(w, 0)`. -/
def srcWeeklyCount (calls : List CdrRow) (w : String) : ℕ :=
  (calls.filter (fun c => c.year_week == w)).length

/-- The weekly count vector of one source aligned to all observed weeks,
`apeluri_trend.py` line 240. -/
def weeklyCountsFor (calls : List CdrRow) (aw : List String) : List ℚ :=
  aw.map (fun w => (srcWeeklyCount calls w : ℚ))

/-- The churn-list entry, `apeluri_trend.py` lines 244-251 and 264. -/
structure ChurnInfo where
  src : String
  total_calls : ℕ
  trend : String
  avg_wait : ℤ
  first_call : String
  last_call : String
  old_calls : ℕ
  recent_calls : ℕ
deriving DecidableEq

/-- The churn decision for one source, the body of the per-source loop of
`compute_trend_stats` (`apeluri_trend.py` lines 231-265): sources with fewer
than 5 calls are skipped, and a source churns when its old-window count is at
least 3 and its recent-window count is 0. -/
def churnEntry (rows : List CdrRow) (aw rws ows : List String) (src : String) :
    Option ChurnInfo :=
  let calls := rows.filter (fun r => r.src == src)
  if calls.length < 5 then none
  else
    let old_count := (ows.map (srcWeeklyCount calls)).sum
    let recent_count := (rws.map (srcWeeklyCount calls)).sum
    if 3 ≤ old_count ∧ recent_count = 0 then
      some { src := src, total_calls := calls.length,
             trend := linear_trend (weeklyCountsFor calls aw),
             avg_wait := pyround (((calls.map (fun c => c.wait_time)).sum : ℚ) /
               calls.length),
             first_call := pyminStr (calls.map (fun c => c.date)),
             last_call := pymaxStr (calls.map (fun c => c.date)),
             old_calls := old_count, recent_calls := recent_count }
    else none

/-- The per-source loop of `compute_trend_stats` restricted to its churn output,
`apeluri_trend.py` lines 231-265: sources iterate in first-occurrence order
(Python dict order). -/
def trends_churn (rows : List CdrRow) : List ChurnInfo :=
  (pyDedupKeys (rows.map (fun r => r.src))).filterMap
    (churnEntry rows (allWeeks rows) (recentWeeks (allWeeks rows))
      (oldWeeks (allWeeks rows)))

instance : DecidableRel (fun (a b : ChurnInfo) => b.old_calls ≤ a.old_calls) :=
  fun a b => inferInstanceAs (Decidable (b.old_calls ≤ a.old_calls))

/-- The churn list as returned in the trend report, `apeluri_trend.py` lines 269
and 325: stable descending sort by old-window count, truncated to 15. -/
def churn_report (rows : List CdrRow) : List ChurnInfo :=
  ((trends_churn rows).insertionSort (fun a b => b.old_calls ≤ a.old_calls)).take 15

/-! ### Trend basic statistics pieces used by claim C10 -/

/-- The answered CDR rows, `apeluri_trend.py` line 133. -/
def trend_answered (rows : List CdrRow) : List CdrRow :=
  rows.filter (fun r => r.answered)

/-- The call-duration population of the trend report, `apeluri_trend.py` line
139: billed seconds of answered rows with positive `billsec`, sorted. -/
def trend_billsecs (rows : List CdrRow) : List ℤ :=
  pysorted (((trend_answered rows).filter (fun r => decide (0 < r.billsec))).map
    (fun r => r.billsec))

/-- Per-population time statistics of the trend report, `apeluri_trend.py`
lines 141-152. -/
structure TimeStats7 where
  avg : ℤ
  median : ℤ
  p50 : ℤ
  p75 : ℤ
  p90 : ℤ
  min : ℤ
  max : ℤ
deriving DecidableEq

/-- `time_stats` from `apeluri_trend.py` lines 141-152. -/
def time_stats7 (vals : List ℤ) : TimeStats7 :=
  if vals = [] then { avg := 0, median := 0, p50 := 0, p75 := 0, p90 := 0, min := 0, max := 0 }
  else
    { avg := pyround (pymean vals), median := pyround (pymedian vals),
      p50 := percentile_val vals 50, p75 := percentile_val vals 75,
      p90 := percentile_val vals 90, min := pymin vals, max := pymax vals }

/-- The `call_duration` component of the trend report, `apeluri_trend.py` line
310. -/
def trend_call_duration (rows : List CdrRow) : TimeStats7 :=
  time_stats7 (trend_billsecs rows)

/-- The `basic.answered` component of the trend report, `apeluri_trend.py` line
304. -/
def trend_answered_count (rows : List CdrRow) : ℕ :=
  (trend_answered rows).length

/-! ### Auxiliary definitions used in the claim statements -/

/-- A terminal call status: COMPLETED or ABANDONED. -/
def isTerminal (s : String) : Bool := s == "COMPLETAT" || s == "ABANDONAT"

/-- Fields of a (stripped) queue-log line. -/
def lineParts (line : String) : List String := pySplit (pyStrip line) '|'

/-- The call id and event name of a line that passes every guard of
`parse_queue_log` including the timestamp parse; `none` for lines that reach no
event-dispatch at all. -/
def lineCidEvent (line : String) : Option (String × String) :=
  let l := pyStrip line
  if l = "" then none
  else
    let parts := pySplit l '|'
    if parts.length < 5 then none
    else if parts.getD 1 "" = "NONE" ∨ parts.getD 4 "" = "CONFIGRELOAD" then none
    else
      match pyInt (parts.getD 0 "") with
      | none => none
      | some _ => some (parts.getD 1 "", parts.getD 4 "")

/-- A line is harmless for call id `cid` when it does not carry an ENTERQUEUE or
CONNECT event for `cid` (lines that fail any parse guard are always harmless). -/
def lineOkFor (cid : String) (l : String) : Bool :=
  match lineCidEvent l with
  | some (c, ev) => !(c == cid) || (!(ev == "ENTERQUEUE") && !(ev == "CONNECT"))
  | none => true

/-- Whether the record for `cid` in the call dict currently has a terminal
status. -/
def terminalAt (s : List (String × CallState)) (cid : String) : Bool :=
  match lookupCall s cid with
  | some c => isTerminal c.status
  | none => false

/-- The timezone-independent content of a display row: status, hold time and
call duration. -/
def ckey (c : OutCall) : String × ℤ × ℤ := (c.status, c.hold_time, c.call_time)

/-- Well-formed display time: the hour parsed from `ora` (if any) lies in 0-23.
Python's `compute_stats` pre-initialises its hourly dict with keys 0-23 and
would raise a `KeyError` otherwise; every row produced by `parse_queue_log`
satisfies this. -/
def oraHourOK (c : OutCall) : Bool :=
  match pyHour c.ora with
  | none => true
  | some h => decide (0 ≤ h) && decide (h < 24)

/-! ### Concrete sample data for witnesses and counterexamples -/

/-- A CDR CSV row with the given source, start, duration, billsec and
disposition, `lastapp = "Queue"`, `lastdata = "comenzi_principal"`. -/
def mkQueueRow (src start dur bill disp : String) : List String :=
  ["acc", src, "dst", "ctx", "clid", "chan", "dchan", "Queue", "comenzi_principal",
   start, "ans", "end", dur, bill, disp, "3", "uid", "uf"]

/-- A CDR CSV row identical to `mkQueueRow` except `lastapp = "Transfer"`. -/
def mkTransferRow (src start dur bill disp : String) : List String :=
  ["acc", src, "dst", "ctx", "clid", "chan", "dchan", "Transfer", "comenzi_principal",
   start, "ans", "end", dur, bill, disp, "3", "uid", "uf"]

/-- Twelve consecutive Mondays starting 2024-01-01 (ISO weeks 2024-W01 .. W12). -/
def mondayDates : List String :=
  ["2024-01-01", "2024-01-08", "2024-01-15", "2024-01-22", "2024-01-29", "2024-02-05",
   "2024-02-12", "2024-02-19", "2024-02-26", "2024-03-04", "2024-03-11", "2024-03-18"]

/-- Churn witness scenario: source 2000 calls every week of a 12-week window,
source 1000 places 4 calls in week 1 and one call in week 7 (old window = weeks
1-6, recent window = weeks 9-12). -/
def churnRowsA : List (List String) :=
  (mondayDates.map (fun m => mkQueueRow "2000" (m ++ " 10:00:00") "60" "50" "ANSWERED")) ++
  ((List.range 4).map (fun i =>
    mkQueueRow "1000" ("2024-01-0" ++ toString (1 + i) ++ " 09:00:00") "30" "20" "ANSWERED")) ++
  [mkQueueRow "1000" "2024-02-12 09:00:00" "30" "20" "NO ANSWER"]

/-- Churn counterexample scenario: source 3000 calls every week of an 8-week
window, source 1000 places exactly 4 calls, all in week 1 (the old window), and
none in the recent window. -/
def churnRowsB : List (List String) :=
  ((mondayDates.take 8).map (fun m => mkQueueRow "3000" (m ++ " 10:00:00") "60" "50" "ANSWERED")) ++
  ((List.range 4).map (fun i =>
    mkQueueRow "1000" ("2024-01-0" ++ toString (1 + i) ++ " 09:00:00") "30" "20" "ANSWERED"))

/-- A completed display row with positive duration, for witnesses. -/
def sampleCallA : OutCall :=
  { callid := "A", queue := "Q", caller_id := "", agent := "1", status := "COMPLETAT",
    ora := "", hold_time := 3, call_time := 60 }

/-- A completed display row with zero duration, for witnesses. -/
def sampleCallB : OutCall :=
  { callid := "B", queue := "Q", caller_id := "", agent := "2", status := "COMPLETAT",
    ora := "", hold_time := 4, call_time := 0 }

/-- The parsed churn witness rows. -/
def churnParsedA : List CdrRow := parse_master_csv churnRowsA none 0

/-- The parsed churn counterexample rows. -/
def churnParsedB : List CdrRow := parse_master_csv churnRowsB none 0

/-! ### Basic facts about the primitives -/

theorem pytrunc_intCast (z : ℤ) : pytrunc (z : ℚ) = z := by
  unfold pytrunc
  split
  · exact Int.floor_intCast z
  · exact Int.ceil_intCast z

theorem pytrunc_nonneg_eq_floor {q : ℚ} (h : 0 ≤ q) : pytrunc q = ⌊q⌋ := by
  simp [pytrunc, h]

/-- Interpolation bounds: for `0 ≤ p ≤ 100` and a list of length `n ≥ 1`,
the position `k = (n-1) * p/100` satisfies `0 ≤ k ≤ n-1`. -/
theorem interpK_bounds {n : ℕ} (hn : 1 ≤ n) {p : ℚ} (hp0 : 0 ≤ p) (hp1 : p ≤ 100) :
    0 ≤ interpK n p ∧ interpK n p ≤ (n : ℚ) - 1 := by
  have hn1 : (0 : ℚ) ≤ (n : ℚ) - 1 := by
    have : (1 : ℚ) ≤ (n : ℚ) := by exact_mod_cast hn
    linarith
  unfold interpK
  constructor
  · positivity
  · nlinarith

/-- For `0 ≤ p ≤ 100` on a list of length `n ≥ 1`, the floor index `f` lies in
`[0, n-1]`. -/
theorem interpF_bounds {n : ℕ} (hn : 1 ≤ n) {p : ℚ} (hp0 : 0 ≤ p) (hp1 : p ≤ 100) :
    0 ≤ interpF n p ∧ interpF n p ≤ (n : ℤ) - 1 := by
  obtain ⟨hk0, hk1⟩ := interpK_bounds hn hp0 hp1
  unfold interpF
  rw [pytrunc_nonneg_eq_floor hk0]
  constructor
  · positivity
  · have hcast : ((n : ℚ) - 1) = (((n : ℤ) - 1 : ℤ) : ℚ) := by push_cast; ring
    calc ⌊interpK n p⌋ ≤ ⌊(((n : ℤ) - 1 : ℤ) : ℚ)⌋ :=
          Int.floor_le_floor (by rw [← hcast]; exact hk1)
      _ = (n : ℤ) - 1 := Int.floor_intCast _

/-- The floor index never exceeds the position `k`. -/
theorem interpF_le_interpK {n : ℕ} {p : ℚ} (hk0 : 0 ≤ interpK n p) :
    (interpF n p : ℚ) ≤ interpK n p := by
  unfold interpF
  rw [pytrunc_nonneg_eq_floor hk0]
  exact Int.floor_le _

/-- Collapsing interpolation: when the two indices agree, interpolation returns
the list element exactly. -/
theorem interpolate_self (l : List ℤ) (k : ℚ) (f : ℤ) :
    pytrunc (interpolate l k f f) = l.getD f.toNat 0 := by
  unfold interpolate
  rw [sub_self, mul_zero, add_zero, pytrunc_intCast]

/-- Collapsing interpolation: when `k = f`, interpolation returns the lower list
element exactly, whatever the upper index is. -/
theorem interpolate_kf (l : List ℤ) (f c : ℤ) :
    pytrunc (interpolate l (f : ℚ) f c) = l.getD f.toNat 0 := by
  unfold interpolate
  rw [sub_self, zero_mul, add_zero, pytrunc_intCast]

/-- Shared helper behind claims C6 and C7: the two percentile implementations
agree on every list and every `p` in `[0, 100]`. -/
theorem percentile_eq_percentile_val (l : List ℤ) (p : ℚ)
    (hp0 : 0 ≤ p) (hp1 : p ≤ 100) : percentile l p = percentile_val l p := by
  unfold percentile percentile_val
  by_cases h0 : l.length = 0
  · simp [h0]
  · have hn : 1 ≤ l.length := Nat.one_le_iff_ne_zero.mpr h0
    obtain ⟨hf0, hf1⟩ := interpF_bounds hn hp0 hp1
    rw [if_neg h0, if_neg h0]
    by_cases hc : (l.length : ℤ) ≤ interpF l.length p + 1
    · have hmin : min (interpF l.length p + 1) ((l.length : ℤ) - 1) =
          interpF l.length p := by omega
      rw [if_pos hc, hmin, interpolate_self]
    · have hmin : min (interpF l.length p + 1) ((l.length : ℤ) - 1) =
          interpF l.length p + 1 := by omega
      rw [if_neg hc, hmin]

/-! ### Endpoint lemmas for the percentile functions -/

theorem foldl_min_of_le (x : ℤ) (xs : List ℤ) (h : ∀ y ∈ xs, x ≤ y) :
    xs.foldl min x = x := by
  induction xs generalizing x with
  | nil => rfl
  | cons y ys ih =>
    have hxy : min x y = x := min_eq_left (h y (by simp))
    simpa [hxy] using ih x (fun z hz => h z (by simp [hz]))

/-- A sorted nonempty list's Python `min` is its first element. -/
theorem pymin_sorted {l : List ℤ} (hs : l.Sorted (· ≤ ·)) (hne : l ≠ []) :
    pymin l = l.getD 0 0 := by
  match l, hne with
  | x :: xs, _ =>
    have h := (List.sorted_cons.mp hs).1
    simpa [pymin] using foldl_min_of_le x xs h

theorem foldl_max_sorted : ∀ (xs : List ℤ) (x : ℤ),
    List.Sorted (· ≤ ·) (x :: xs) → xs.foldl max x = (x :: xs).getLast (by simp)
  | [], x, _ => rfl
  | y :: ys, x, hs => by
    have hxy : x ≤ y := (List.sorted_cons.mp hs).1 y (by simp)
    have htail : List.Sorted (· ≤ ·) (y :: ys) := (List.sorted_cons.mp hs).2
    have := foldl_max_sorted ys y htail
    simp only [List.foldl, max_eq_right hxy]
    rw [this]
    exact (List.getLast_cons (by simp)).symm

/-- A sorted nonempty list's Python `max` is its last element. -/
theorem pymax_sorted {l : List ℤ} (hs : l.Sorted (· ≤ ·)) (hne : l ≠ []) :
    pymax l = l.getLast hne := by
  match l, hne with
  | x :: xs, _ => simpa [pymax] using foldl_max_sorted xs x hs

theorem getD_length_sub_one : ∀ (l : List ℤ) (hne : l ≠ []),
    l.getD (l.length - 1) 0 = l.getLast hne
  | [x], _ => rfl
  | x :: y :: ys, _ => by
    have := getD_length_sub_one (y :: ys) (by simp)
    simpa [List.getLast_cons] using this

/-- Value of `percentile` at `p = 0`: the first list element. -/
theorem percentile_zero {l : List ℤ} (hne : l ≠ []) : percentile l 0 = l.getD 0 0 := by
  have h0 : ¬ l.length = 0 := by simpa using hne
  have hk : interpK l.length 0 = 0 := by simp [interpK]
  have hf : interpF l.length 0 = 0 := by
    rw [interpF, hk]
    simpa using pytrunc_intCast 0
  unfold percentile
  rw [if_neg h0, hf]
  by_cases hc : (l.length : ℤ) ≤ 0 + 1
  · rw [if_pos hc]
    rfl
  · rw [if_neg hc, hk]
    have : pytrunc (interpolate l ((0 : ℤ) : ℚ) 0 (0 + 1)) = l.getD (0 : ℤ).toNat 0 :=
      interpolate_kf l 0 (0 + 1)
    simpa using this

/-- Value of `percentile_val` at `p = 0`: the first list element. -/
theorem percentile_val_zero {l : List ℤ} (hne : l ≠ []) :
    percentile_val l 0 = l.getD 0 0 := by
  rw [← percentile_eq_percentile_val l 0 le_rfl (by norm_num)]
  exact percentile_zero hne

/-- Value of `percentile` at `p = 100`: the last list element. -/
theorem percentile_hundred {l : List ℤ} (hne : l ≠ []) :
    percentile l 100 = l.getLast hne := by
  have h0 : ¬ l.length = 0 := by simpa using hne
  have hn : 1 ≤ l.length := Nat.one_le_iff_ne_zero.mpr (by simpa using hne)
  have hk : interpK l.length 100 = (((l.length : ℤ) - 1 : ℤ) : ℚ) := by
    unfold interpK
    push_cast
    ring
  have hf : interpF l.length 100 = (l.length : ℤ) - 1 := by
    rw [interpF, hk, pytrunc_intCast]
  unfold percentile
  rw [if_neg h0, hf, if_pos (by omega)]
  have htn : ((l.length : ℤ) - 1).toNat = l.length - 1 := by omega
  rw [htn, getD_length_sub_one l hne]

/-- Value of `percentile_val` at `p = 100`: the last list element. -/
theorem percentile_val_hundred {l : List ℤ} (hne : l ≠ []) :
    percentile_val l 100 = l.getLast hne := by
  rw [← percentile_eq_percentile_val l 100 (by norm_num) le_rfl]
  exact percentile_hundred hne

/-! ## Trend classification: claim C5 -/

/-- The index list always sums to at least 1 once it has two entries. -/
theorem one_le_range_sum {n : ℕ} (hn : 2 ≤ n) :
    1 ≤ ((List.range n).map (fun i : ℕ => (i : ℚ))).sum := by
  have h1n : (1 : ℕ) ∈ List.range n := List.mem_range.mpr (by omega)
  have hmem : (1 : ℚ) ∈ (List.range n).map (fun i : ℕ => (i : ℚ)) := by
    have h2 := List.mem_map_of_mem (fun i : ℕ => (i : ℚ)) h1n
    simpa using h2
  have hnonneg : ∀ x ∈ (List.range n).map (fun i : ℕ => (i : ℚ)), 0 ≤ x := by
    intro x hx
    obtain ⟨i, _, rfl⟩ := List.mem_map.mp hx
    exact Nat.cast_nonneg i
  exact List.single_le_sum hnonneg 1 hmem

/-- The mean of the index list is positive for `n ≥ 2`. -/
theorem xMean_pos {n : ℕ} (hn : 2 ≤ n) : 0 < xMean n := by
  unfold xMean
  have h1 := one_le_range_sum hn
  have hn0 : (0 : ℚ) < n := by exact_mod_cast (by omega : 0 < n)
  exact div_pos (by linarith) hn0

/-- The OLS denominator is positive for `n ≥ 2`, so `linear_trend`'s
zero-variance branch never fires once three entries exist. -/
theorem olsDen_pos {n : ℕ} (hn : 2 ≤ n) : 0 < olsDen n := by
  unfold olsDen
  have hxm := xMean_pos hn
  have h0n : (0 : ℕ) ∈ List.range n := List.mem_range.mpr (by omega)
  have hmem : ((0 : ℚ) - xMean n) ^ 2 ∈
      (List.range n).map (fun i : ℕ => ((i : ℚ) - xMean n) ^ 2) := by
    have h2 := List.mem_map_of_mem (fun i : ℕ => ((i : ℚ) - xMean n) ^ 2) h0n
    simpa using h2
  have hnonneg : ∀ x ∈ (List.range n).map (fun i : ℕ => ((i : ℚ) - xMean n) ^ 2), 0 ≤ x := by
    intro x hx
    obtain ⟨i, _, rfl⟩ := List.mem_map.mp hx
    positivity
  have hle := List.single_le_sum hnonneg _ hmem
  have hpos : 0 < ((0 : ℚ) - xMean n) ^ 2 := by
    have : (0 : ℚ) - xMean n ≠ 0 := by intro h; rw [sub_eq_zero] at h; exact absurd h.symm (ne_of_gt hxm)
    positivity
  linarith

/-- C5: trend classification of a per-source weekly count vector returns STABLE
when the vector has fewer than 3 entries or its mean is 0, and otherwise
classifies by the OLS slope divided by the mean with thresholds at plus and
minus 8%; the three vectors named by the spec classify as GROWING, DECLINING
and STABLE respectively. -/
theorem claim5_linear_trend_classification :
    (∀ v : List ℚ, v.length < 3 ∨ specMean v = 0 → linear_trend v = "stabil") ∧
    (∀ v : List ℚ, 3 ≤ v.length → specMean v ≠ 0 →
      ((linear_trend v = "crestere" ↔ 8 / 100 < specSlope v / specMean v) ∧
       (linear_trend v = "scadere" ↔ specSlope v / specMean v < -(8 / 100)) ∧
       (linear_trend v = "stabil" ↔
         ¬ (8 / 100 < specSlope v / specMean v) ∧
           ¬ (specSlope v / specMean v < -(8 / 100))))) ∧
    linear_trend [1, 1, 1, 1, 8, 9] = "crestere" ∧
    linear_trend [9, 8, 1, 1, 1, 1] = "scadere" ∧
    linear_trend [3, 3, 3, 3, 3, 3] = "stabil" := by
  have hr : List.range 6 = [0, 1, 2, 3, 4, 5] := rfl
  refine ⟨?_, ?_,
    by norm_num [linear_trend, olsNum, olsDen, specMean, xMean, hr],
    by norm_num [linear_trend, olsNum, olsDen, specMean, xMean, hr],
    by norm_num [linear_trend, olsNum, olsDen, specMean, xMean, hr]⟩
  · intro v h
    rcases h with hlen | hmean
    · unfold linear_trend
      rw [if_pos hlen]
    · unfold linear_trend
      split_ifs <;> rfl
  · intro v hlen hmean
    have hden : olsDen v.length ≠ 0 := ne_of_gt (olsDen_pos (by omega))
    unfold linear_trend specSlope
    rw [if_neg (by omega : ¬ v.length < 3), if_neg hden, if_neg hmean]
    split_ifs with hgt hlt
    · refine ⟨by simp [hgt], ?_, ?_⟩
      · constructor
        · intro h; exact absurd h (by decide)
        · intro h; linarith
      · constructor
        · intro h; exact absurd h (by decide)
        · intro h; exact absurd hgt h.1
    · refine ⟨?_, by simp [hlt], ?_⟩
      · constructor
        · intro h; exact absurd h (by decide)
        · intro h; exact absurd h hgt
      · constructor
        · intro h; exact absurd h (by decide)
        · intro h; exact absurd hlt h.2
    · refine ⟨?_, ?_, by simp [hgt, hlt]⟩
      · constructor
        · intro h; exact absurd h (by decide)
        · intro h; exact absurd h hgt
      · constructor
        · intro h; exact absurd h (by decide)
        · intro h; exact absurd h hlt

/-- Witness for C5 at the spec's GROWING example. -/
theorem claim5_witness :
    3 ≤ ([1, 1, 1, 1, 8, 9] : List ℚ).length ∧ specMean [1, 1, 1, 1, 8, 9] ≠ 0 ∧
      (linear_trend [1, 1, 1, 1, 8, 9] = "crestere" ↔
        8 / 100 < specSlope [1, 1, 1, 1, 8, 9] / specMean [1, 1, 1, 1, 8, 9]) :=
  ⟨by norm_num, by norm_num [specMean],
    (claim5_linear_trend_classification.2.1 [1, 1, 1, 1, 8, 9] (by norm_num)
      (by norm_num [specMean])).1⟩

/-! ## The percentile claims C6 and C7 -/

/-- C6: the two independently implemented percentile functions are extensionally
equal on every sorted integer list for every `p` in `[0, 100]`. -/
theorem claim6_percentile_functions_agree (l : List ℤ) (p : ℚ)
    (_hs : l.Sorted (· ≤ ·)) (hp0 : 0 ≤ p) (hp1 : p ≤ 100) :
    percentile l p = percentile_val l p :=
  percentile_eq_percentile_val l p hp0 hp1

/-- Witness for C6 at the sorted list `[1, 2, 3, 4]` and `p = 90`. -/
theorem claim6_witness :
    List.Sorted (fun a b : ℤ => a ≤ b) [1, 2, 3, 4] ∧ (0 : ℚ) ≤ 90 ∧ (90 : ℚ) ≤ 100 ∧
      percentile [1, 2, 3, 4] 90 = percentile_val [1, 2, 3, 4] 90 :=
  ⟨by decide, by norm_num, by norm_num,
    claim6_percentile_functions_agree [1, 2, 3, 4] 90 (by decide) (by norm_num) (by norm_num)⟩

/-- C7: on a nonempty sorted list, percentile 0 is the minimum and percentile
100 is the maximum, for both implementations; on the empty list both return 0
for every `p`. -/
theorem claim7_percentile_endpoints :
    (∀ (l : List ℤ), l ≠ [] → l.Sorted (· ≤ ·) →
      percentile l 0 = pymin l ∧ percentile l 100 = pymax l ∧
        percentile_val l 0 = pymin l ∧ percentile_val l 100 = pymax l) ∧
    (∀ p : ℚ, percentile [] p = 0 ∧ percentile_val [] p = 0) := by
  constructor
  · intro l hne hs
    refine ⟨?_, ?_, ?_, ?_⟩
    · rw [percentile_zero hne, pymin_sorted hs hne]
    · rw [percentile_hundred hne, pymax_sorted hs hne]
    · rw [percentile_val_zero hne, pymin_sorted hs hne]
    · rw [percentile_val_hundred hne, pymax_sorted hs hne]
  · intro p
    exact ⟨rfl, rfl⟩

/-- Witness for C7 at the sorted list `[2, 5, 9]`. -/
theorem claim7_witness :
    percentile [2, 5, 9] 0 = pymin [2, 5, 9] ∧ percentile [2, 5, 9] 100 = pymax [2, 5, 9] ∧
      percentile_val [2, 5, 9] 0 = pymin [2, 5, 9] ∧
      percentile_val [2, 5, 9] 100 = pymax [2, 5, 9] :=
  claim7_percentile_endpoints.1 [2, 5, 9] (by decide) (by decide)

/-! ## Queue-log dictionary lemmas -/

theorem lookupCall_append (s t : List (String × CallState)) (cid : String) :
    lookupCall (s ++ t) cid =
      match lookupCall s cid with
      | some v => some v
      | none => lookupCall t cid := by
  induction s with
  | nil => rfl
  | cons kv rest ih =>
    obtain ⟨k, v⟩ := kv
    by_cases hk : k = cid
    · simp [lookupCall, hk]
    · simp [lookupCall, hk, ih]

theorem lookupCall_update_self (s : List (String × CallState)) (cid : String)
    (f : CallState → CallState) :
    lookupCall (updateCall s cid f) cid = (lookupCall s cid).map f := by
  induction s with
  | nil => rfl
  | cons kv rest ih =>
    obtain ⟨k, v⟩ := kv
    by_cases hk : k = cid
    · simp [lookupCall, updateCall, hk]
    · simp [lookupCall, updateCall, hk, ih]

theorem lookupCall_update_other (s : List (String × CallState)) (key cid : String)
    (f : CallState → CallState) (h : key ≠ cid) :
    lookupCall (updateCall s key f) cid = lookupCall s cid := by
  induction s with
  | nil => rfl
  | cons kv rest ih =>
    obtain ⟨k, v⟩ := kv
    by_cases hk : k = key
    · subst hk
      simp [lookupCall, updateCall, h]
    · by_cases hc : k = cid
      · simp [lookupCall, updateCall, hk, hc, Ne.symm h]
      · simp [lookupCall, updateCall, hk, hc, ih]

/-- The resulting status of one event application, read off the state machine. -/
theorem applyEvent_status (c : CallState) (ts : ℤ) (agent event : String)
    (data : List String) :
    (applyEvent c ts agent event data).status =
      if event = "ENTERQUEUE" then "IN_QUEUE"
      else if event = "CONNECT" then "CONNECTED"
      else if event = "COMPLETEAGENT" ∨ event = "COMPLETECALLER" then "COMPLETAT"
      else if event = "ABANDON" then "ABANDONAT"
      else if event = "RINGNOANSWER" then
        (if c.status ≠ "COMPLETAT" ∧ c.status ≠ "ABANDONAT" then "NEPRELUATE" else c.status)
      else c.status := by
  simp only [applyEvent]
  split_ifs <;> rfl

/-- Any event other than ENTERQUEUE and CONNECT leaves a terminal status
terminal. -/
theorem applyEvent_keeps_terminal (c : CallState) (ts : ℤ) (agent event : String)
    (data : List String) (hterm : isTerminal c.status = true)
    (h1 : event ≠ "ENTERQUEUE") (h2 : event ≠ "CONNECT") :
    isTerminal (applyEvent c ts agent event data).status = true := by
  rw [applyEvent_status, if_neg h1, if_neg h2]
  split_ifs with h3 h4 h5 h6
  · rfl
  · rfl
  · exfalso
    have hst : c.status = "COMPLETAT" ∨ c.status = "ABANDONAT" := by
      simpa [isTerminal] using hterm
    rcases hst with hst | hst
    · exact h6.1 hst
    · exact h6.2 hst
  · exact hterm
  · exact hterm

theorem terminalAt_some (s : List (String × CallState)) (cid : String)
    (h : terminalAt s cid = true) :
    ∃ c, lookupCall s cid = some c ∧ isTerminal c.status = true := by
  unfold terminalAt at h
  cases hl : lookupCall s cid with
  | none => rw [hl] at h; exact absurd h (by decide)
  | some c => rw [hl] at h; exact ⟨c, rfl, h⟩

theorem terminalAt_append_new (s : List (String × CallState)) (cid k : String)
    (v : CallState) (h : terminalAt s cid = true) :
    terminalAt (s ++ [(k, v)]) cid = true := by
  obtain ⟨c, hc, hct⟩ := terminalAt_some s cid h
  unfold terminalAt
  rw [lookupCall_append, hc]
  exact hct

/-- Unpacking `lineOkFor` at a line that parses to `(cid, ev)`. -/
theorem lineOkFor_spec {cid l ev : String} (h : lineOkFor cid l = true)
    (he : lineCidEvent l = some (cid, ev)) :
    ev ≠ "ENTERQUEUE" ∧ ev ≠ "CONNECT" := by
  unfold lineOkFor at h
  rw [he] at h
  simp at h
  exact ⟨h.1, h.2⟩

/-- One line of input can only leave a terminal record terminal, unless the line
carries an ENTERQUEUE or CONNECT event for that call id. -/
theorem processLine_keeps_terminal (s : List (String × CallState)) (line : String)
    (cid : String) (hterm : terminalAt s cid = true)
    (hline : lineOkFor cid line = true) :
    terminalAt (processLine s line) cid = true := by
  by_cases h1 : pyStrip line = ""
  · simp only [processLine]
    rw [if_pos h1]
    exact hterm
  · by_cases h2 : (pySplit (pyStrip line) '|').length < 5
    · simp only [processLine]
      rw [if_neg h1, if_pos h2]
      exact hterm
    · by_cases h3 : (pySplit (pyStrip line) '|').getD 1 "" = "NONE" ∨
          (pySplit (pyStrip line) '|').getD 4 "" = "CONFIGRELOAD"
      · simp only [processLine]
        rw [if_neg h1, if_neg h2, if_pos h3]
        exact hterm
      · have hcalls1 : terminalAt
            (if (lookupCall s ((pySplit (pyStrip line) '|').getD 1 "")).isNone then
              s ++ [((pySplit (pyStrip line) '|').getD 1 "",
                initCall ((pySplit (pyStrip line) '|').getD 1 "")
                  ((pySplit (pyStrip line) '|').getD 2 ""))]
            else s) cid = true := by
          split_ifs with hins
          · exact terminalAt_append_new s cid _ _ hterm
          · exact hterm
        cases hts : pyInt ((pySplit (pyStrip line) '|').getD 0 "") with
        | none =>
          simp only [processLine]
          rw [if_neg h1, if_neg h2, if_neg h3]
          simp only [hts]
          exact hcalls1
        | some ts =>
          simp only [processLine]
          rw [if_neg h1, if_neg h2, if_neg h3]
          simp only [hts]
          by_cases hkc : (pySplit (pyStrip line) '|').getD 1 "" = cid
          · have hcidev : lineCidEvent line =
                some (cid, (pySplit (pyStrip line) '|').getD 4 "") := by
              simp only [lineCidEvent]
              rw [if_neg h1, if_neg h2, if_neg h3]
              simp only [hts]
              rw [hkc]
            have hev2 := lineOkFor_spec hline hcidev
            rw [hkc] at hcalls1 ⊢
            obtain ⟨c1, hc1, hc1t⟩ := terminalAt_some _ cid hcalls1
            unfold terminalAt
            rw [lookupCall_update_self, hc1]
            exact applyEvent_keeps_terminal c1 ts _ _ _ hc1t hev2.1 hev2.2
          · unfold terminalAt
            rw [lookupCall_update_other _ _ _ _ hkc]
            exact hcalls1

theorem foldl_keeps_terminal (rest : List String) (s : List (String × CallState))
    (cid : String) (hterm : terminalAt s cid = true)
    (hrest : ∀ l ∈ rest, lineOkFor cid l = true) :
    terminalAt (rest.foldl processLine s) cid = true := by
  induction rest generalizing s with
  | nil => exact hterm
  | cons l ls ih =>
    refine ih (processLine s l) ?_ ?_
    · exact processLine_keeps_terminal s l cid hterm (hrest l (by simp))
    · intro l2 hl2
      exact hrest l2 (by simp [hl2])

/-! ## Claim C1: terminality of COMPLETED/ABANDONED -/

/-- C1 counterexample: after a COMPLETEAGENT line the record for C1 is terminal
(COMPLETAT), yet a later ENTERQUEUE line for the same call id resets the status
to the non-terminal IN_QUEUE, and the parse output reports IN_CURS.  This
refutes the claim that no later event line can change a terminal status to a
non-terminal value. -/
theorem claim1_counterexample :
    terminalAt (runLines ["100|C1|Q|A|COMPLETEAGENT|5|10"]) "C1" = true ∧
    terminalAt (runLines
      ["100|C1|Q|A|COMPLETEAGENT|5|10", "200|C1|Q|A|ENTERQUEUE|1|0755"]) "C1" = false ∧
    (parse_queue_log
      ["100|C1|Q|A|COMPLETEAGENT|5|10", "200|C1|Q|A|ENTERQUEUE|1|0755"] 0).calls.map
        (fun c => c.status) = ["IN_CURS"] := by
  decide

/-- C1 (amended): once a record's status is terminal, later lines whose parsed
event is neither ENTERQUEUE nor CONNECT keep it terminal, and finalisation
leaves a terminal record unchanged. -/
theorem claim1_terminal_preserved_without_enterqueue_connect :
    (∀ (pre rest : List String) (cid : String),
      terminalAt (runLines pre) cid = true →
      (∀ l ∈ rest, lineOkFor cid l = true) →
      terminalAt (runLines (pre ++ rest)) cid = true) ∧
    (∀ c : CallState, isTerminal c.status = true → finalizeCall c = c) := by
  constructor
  · intro pre rest cid hterm hrest
    unfold runLines
    rw [List.foldl_append]
    exact foldl_keeps_terminal rest _ cid hterm hrest
  · intro c hc
    have hst : c.status = "COMPLETAT" ∨ c.status = "ABANDONAT" := by
      simpa [isTerminal] using hc
    unfold finalizeCall
    rcases hst with hst | hst <;> rw [if_neg (by rw [hst]; decide)]

/-- Witness for C1: a COMPLETEAGENT line followed by ABANDON, RINGNOANSWER and a
malformed line keeps the record terminal. -/
theorem claim1_witness :
    terminalAt (runLines ["100|C1|Q|A|COMPLETEAGENT|5|10"]) "C1" = true ∧
    terminalAt (runLines (["100|C1|Q|A|COMPLETEAGENT|5|10"] ++
      ["200|C1|Q|A|ABANDON|1|1|20", "300|C1|Q|A|RINGNOANSWER", "junk"])) "C1" = true :=
  ⟨by decide,
    claim1_terminal_preserved_without_enterqueue_connect.1
      ["100|C1|Q|A|COMPLETEAGENT|5|10"]
      ["200|C1|Q|A|ABANDON|1|1|20", "300|C1|Q|A|RINGNOANSWER", "junk"] "C1"
      (by decide) (by decide)⟩

/-! ## Claim C9: RINGNOANSWER never downgrades a terminal status -/

/-- C9 counterexample: the call reaches COMPLETAT, an intervening ENTERQUEUE
resets it to IN_QUEUE, and then a subsequent RINGNOANSWER *does* change the
status (to NEPRELUATE).  This refutes the claim read as "once terminal, no
subsequent RINGNOANSWER ever changes the status". -/
theorem claim9_counterexample :
    terminalAt (runLines ["100|C9|Q|A|COMPLETEAGENT|5|10"]) "C9" = true ∧
    ((lookupCall (runLines ["100|C9|Q|A|COMPLETEAGENT|5|10",
        "200|C9|Q|A|ENTERQUEUE|1|0711"]) "C9").map (fun c => c.status)) =
      some "IN_QUEUE" ∧
    ((lookupCall (runLines ["100|C9|Q|A|COMPLETEAGENT|5|10",
        "200|C9|Q|A|ENTERQUEUE|1|0711", "300|C9|Q|A|RINGNOANSWER"]) "C9").map
          (fun c => c.status)) = some "NEPRELUATE" := by
  decide

/-- C9 (amended): a RINGNOANSWER step never changes a status that is currently
COMPLETED or ABANDONED — the per-step guard of the state machine. -/
theorem claim9_ringnoanswer_keeps_current_terminal (c : CallState) (ts : ℤ)
    (agent : String) (data : List String) (hterm : isTerminal c.status = true) :
    (applyEvent c ts agent "RINGNOANSWER" data).status = c.status := by
  rw [applyEvent_status]
  have hst : c.status = "COMPLETAT" ∨ c.status = "ABANDONAT" := by
    simpa [isTerminal] using hterm
  have hcond : ¬ (c.status ≠ "COMPLETAT" ∧ c.status ≠ "ABANDONAT") := by
    rcases hst with hst | hst
    · intro h; exact h.1 hst
    · intro h; exact h.2 hst
  rw [if_neg (by decide), if_neg (by decide), if_neg (by decide), if_neg (by decide),
    if_pos rfl, if_neg hcond]

/-- Witness for C9 at a concrete completed record. -/
theorem claim9_witness :
    (applyEvent
      { callid := "C1", queue := "Q", caller_id := "", agent := "",
        status := "COMPLETAT", enter_time := none, connect_time := none,
        end_time := none, hold_time := 0, call_time := 0, events := [] }
      500 "SIP/201" "RINGNOANSWER" []).status = "COMPLETAT" :=
  claim9_ringnoanswer_keeps_current_terminal _ 500 "SIP/201" [] (by decide)

/-! ## Claim C2: effect of a line with an unparsable timestamp -/

/-- C2 counterexample: a single line whose timestamp field is not an integer
produces a call record (status IN_CURS), so the parse result differs from the
result on the empty input — the line is not discarded atomically. -/
theorem claim2_counterexample :
    (parse_queue_log ["xx|C1|Q|A|ENTERQUEUE"] 0).total = 1 ∧
    (parse_queue_log ([] : List String) 0).total = 0 ∧
    (parse_queue_log ["xx|C1|Q|A|ENTERQUEUE"] 0).calls.map (fun c => c.status) =
      ["IN_CURS"] := by
  decide

/-- C2 (amended): a bad-timestamp line whose call id is already registered has
no effect at all: the parse result on `pre ++ line :: post` equals the result
on `pre ++ post`.  (With a fresh call id the line still registers an empty
record, as the counterexample shows.) -/
theorem claim2_bad_timestamp_noop_when_registered (pre post : List String)
    (line : String) (tz : ℤ)
    (hne : ¬ pyStrip line = "")
    (hlen : ¬ (lineParts line).length < 5)
    (hguard : ¬ ((lineParts line).getD 1 "" = "NONE" ∨
      (lineParts line).getD 4 "" = "CONFIGRELOAD"))
    (hts : pyInt ((lineParts line).getD 0 "") = none)
    (hreg : (lookupCall (runLines pre) ((lineParts line).getD 1 "")).isSome = true) :
    parse_queue_log (pre ++ line :: post) tz = parse_queue_log (pre ++ post) tz := by
  simp only [lineParts] at hlen hguard hts hreg
  have hstep : processLine (runLines pre) line = runLines pre := by
    obtain ⟨c, hc⟩ := Option.isSome_iff_exists.mp hreg
    simp only [processLine]
    rw [if_neg hne, if_neg hlen, if_neg hguard]
    simp only [hts]
    rw [hc]
    simp
  have hrun : runLines (pre ++ line :: post) = runLines (pre ++ post) := by
    unfold runLines
    rw [List.foldl_append, List.foldl_append, List.foldl_cons]
    unfold runLines at hstep
    rw [hstep]
  unfold parse_queue_log callListOf
  rw [hrun]

/-- Witness for C2: a CONNECT line with timestamp `"zz"` for an already-seen
call id is dropped with no effect. -/
theorem claim2_witness :
    parse_queue_log (["100|C1|Q|A|ENTERQUEUE|1|07"] ++ "zz|C1|Q|A|CONNECT|5" ::
      ["200|C1|Q|A|RINGNOANSWER"]) 0 =
    parse_queue_log (["100|C1|Q|A|ENTERQUEUE|1|07"] ++ ["200|C1|Q|A|RINGNOANSWER"]) 0 :=
  claim2_bad_timestamp_noop_when_registered ["100|C1|Q|A|ENTERQUEUE|1|07"]
    ["200|C1|Q|A|RINGNOANSWER"] "zz|C1|Q|A|CONNECT|5" 0
    (by decide) (by decide) (by decide) (by decide) (by decide)

/-! ## Claim C8: the CDR row filter -/

/-- Inversion of a successful CDR row conversion: every guard must have passed,
and the numeric fields come from `dbOf`. -/
theorem cdrRowOf_some_inv {co : Option ℤ} {row : List String} {r : CdrRow}
    (h : cdrRowOf co row = some r) :
    ¬ row.length < 16 ∧ row.getD 7 "" = "Queue" ∧
      pyStartsWith (row.getD 8 "") "comenzi" = true ∧
      (∃ dt, parseYmdHMS (row.getD 9 "") = some dt ∧
        (∀ cut, co = some cut → ¬ toSecs dt < cut)) ∧
      ¬ pyStrip (row.getD 1 "") = "" ∧ ¬ (pyStrip (row.getD 1 "")).length < 4 ∧
      r.duration = (dbOf row).1 ∧ r.billsec = (dbOf row).2 ∧
      r.wait_time = max ((dbOf row).1 - (dbOf row).2) 0 := by
  unfold cdrRowOf at h
  by_cases h1 : row.length < 16
  · rw [if_pos h1] at h
    exact Option.noConfusion h
  · rw [if_neg h1] at h
    by_cases h2 : row.getD 7 "" ≠ "Queue"
    · rw [if_pos h2] at h
      exact Option.noConfusion h
    · rw [if_neg h2] at h
      by_cases h3 : ¬ pyStartsWith (row.getD 8 "") "comenzi" = true
      · rw [if_pos h3] at h
        exact Option.noConfusion h
      · rw [if_neg h3] at h
        cases hp : parseYmdHMS (row.getD 9 "") with
        | none =>
          rw [hp] at h
          exact Option.noConfusion h
        | some dt =>
          rw [hp] at h
          cases hco : co with
          | none =>
            subst hco
            simp only at h
            by_cases h5 : pyStrip (row.getD 1 "") = "" ∨ (pyStrip (row.getD 1 "")).length < 4
            · rw [if_pos h5] at h
              exact Option.noConfusion h
            · rw [if_neg h5] at h
              push_neg at h5
              obtain rfl := (Option.some.injEq _ _).mp h.symm
              refine ⟨h1, not_not.mp h2, not_not.mp h3,
                ⟨dt, rfl, ?_⟩, h5.1, not_lt.mpr h5.2, rfl, rfl, rfl⟩
              intro cut hcut
              exact Option.noConfusion hcut
          | some c =>
            subst hco
            simp only at h
            by_cases h4 : toSecs dt < c
            · rw [if_pos (by simpa using h4)] at h
              exact Option.noConfusion h
            · rw [if_neg (by simpa using h4)] at h
              by_cases h5 : pyStrip (row.getD 1 "") = "" ∨
                  (pyStrip (row.getD 1 "")).length < 4
              · rw [if_pos h5] at h
                exact Option.noConfusion h
              · rw [if_neg h5] at h
                push_neg at h5
                obtain rfl := (Option.some.injEq _ _).mp h.symm
                refine ⟨h1, not_not.mp h2, not_not.mp h3,
                  ⟨dt, rfl, ?_⟩, h5.1, not_lt.mpr h5.2, rfl, rfl, rfl⟩
                intro cut hcut
                obtain rfl := (Option.some.injEq _ _).mp hcut.symm
                exact h4

/-- Construction of a CDR row when every guard passes. -/
theorem cdrRowOf_some_intro (co : Option ℤ) (row : List String)
    (h1 : ¬ row.length < 16) (h2 : row.getD 7 "" = "Queue")
    (h3 : pyStartsWith (row.getD 8 "") "comenzi" = true)
    (dt : PyDateTime) (hp : parseYmdHMS (row.getD 9 "") = some dt)
    (hcut : ∀ cut, co = some cut → ¬ toSecs dt < cut)
    (h5a : ¬ pyStrip (row.getD 1 "") = "")
    (h5b : ¬ (pyStrip (row.getD 1 "")).length < 4) :
    ∃ r, cdrRowOf co row = some r := by
  have hsrc : ¬ (pyStrip (row.getD 1 "") = "" ∨ (pyStrip (row.getD 1 "")).length < 4) := by
    intro hor
    rcases hor with hor | hor
    · exact h5a hor
    · exact h5b hor
  unfold cdrRowOf
  rw [if_neg h1, if_neg (not_not.mpr h2), if_neg (not_not.mpr h3), hp]
  cases co with
  | none =>
    simp only
    rw [if_neg (by simp : ¬ (false = true)), if_neg hsrc]
    exact ⟨_, rfl⟩
  | some c =>
    have hc := hcut c rfl
    simp only
    rw [if_neg (by simpa using hc), if_neg hsrc]
    exact ⟨_, rfl⟩

/-- C8: a CSV row is included iff it has at least 16 columns, `lastapp` is
`"Queue"`, `lastdata` starts with `"comenzi"`, the start column parses, the
optional age cutoff passes and the stripped source has at least 4 characters;
produced rows satisfy `wait_time = max(duration - billsec, 0) ≥ 0`, and a parse
failure of duration or billsec yields 0 for both rather than exclusion; a
Transfer row is always excluded and the sample Queue/comenzi row is included. -/
theorem claim8_cdr_filter :
    (∀ (days : Option ℤ) (now : ℤ) (row : List String),
      (∃ r, cdrRowOf (cutoffOf days now) row = some r) ↔
        (16 ≤ row.length ∧ row.getD 7 "" = "Queue" ∧
          pyStartsWith (row.getD 8 "") "comenzi" = true ∧
          (∃ dt, parseYmdHMS (row.getD 9 "") = some dt ∧
            (∀ cut, cutoffOf days now = some cut → ¬ toSecs dt < cut)) ∧
          pyStrip (row.getD 1 "") ≠ "" ∧ 4 ≤ (pyStrip (row.getD 1 "")).length)) ∧
    (∀ (co : Option ℤ) (row : List String) (r : CdrRow), cdrRowOf co row = some r →
      r.wait_time = max (r.duration - r.billsec) 0 ∧ 0 ≤ r.wait_time) ∧
    (∀ (co : Option ℤ) (row : List String) (r : CdrRow), cdrRowOf co row = some r →
      pyInt (row.getD 12 "") = none ∨ pyInt (row.getD 13 "") = none →
      r.duration = 0 ∧ r.billsec = 0) ∧
    cdrRowOf none (mkTransferRow "1000" "2024-01-15 10:30:00" "60" "50" "ANSWERED") =
      none ∧
    (∃ r, cdrRowOf none (mkQueueRow "1000" "2024-01-15 10:30:00" "60" "50" "ANSWERED") =
      some r) := by
  refine ⟨?_, ?_, ?_, by decide, Option.isSome_iff_exists.mp (by decide)⟩
  · intro days now row
    constructor
    · intro ⟨r, hr⟩
      obtain ⟨h1, h2, h3, ⟨dt, hp, hcut⟩, h5a, h5b, _, _, _⟩ := cdrRowOf_some_inv hr
      exact ⟨not_lt.mp h1, h2, h3, ⟨dt, hp, hcut⟩, h5a, not_lt.mp h5b⟩
    · intro ⟨h1, h2, h3, ⟨dt, hp, hcut⟩, h5a, h5b⟩
      exact cdrRowOf_some_intro _ row (not_lt.mpr h1) h2 h3 dt hp hcut h5a
        (not_lt.mpr h5b)
  · intro co row r hr
    obtain ⟨_, _, _, _, _, _, hd, hb, hw⟩ := cdrRowOf_some_inv hr
    constructor
    · rw [hw, hd, hb]
    · rw [hw]
      exact le_max_right _ _
  · intro co row r hr hbad
    obtain ⟨_, _, _, _, _, _, hd, hb, _⟩ := cdrRowOf_some_inv hr
    have hdb : dbOf row = (0, 0) := by
      unfold dbOf
      rcases hbad with hbad | hbad
      · rw [hbad]
      · rw [hbad]
        cases pyInt (row.getD 12 "") <;> rfl
    rw [hd, hb, hdb]
    exact ⟨rfl, rfl⟩

/-- Witness for C8: the sample Queue/comenzi row produces a record whose wait
time is `max(60 - 50, 0) = 10 ≥ 0`. -/
theorem claim8_witness :
    ∃ r, cdrRowOf none (mkQueueRow "1000" "2024-01-15 10:30:00" "60" "50" "ANSWERED") =
        some r ∧ r.wait_time = max (r.duration - r.billsec) 0 ∧ 0 ≤ r.wait_time := by
  obtain ⟨r, hr⟩ : ∃ r, cdrRowOf none
      (mkQueueRow "1000" "2024-01-15 10:30:00" "60" "50" "ANSWERED") = some r :=
    Option.isSome_iff_exists.mp (by decide)
  exact ⟨r, hr, claim8_cdr_filter.2.1 none _ r hr⟩

/-! ## Claim C10: duration statistics cover only positive-duration answered
calls -/

/-- C10: the daily statistics duration population is the completed calls with
positive `call_time`, the trend duration population is the answered rows with
positive `billsec`, and appending a zero-duration answered call increments the
answered count while leaving the duration statistics unchanged. -/
theorem claim10_duration_population :
    (∀ (calls : List OutCall) (c : OutCall),
      (calls ++ [c]).all oraHourOK = true →
      c.status = "COMPLETAT" → c.call_time = 0 →
      (compute_stats (calls ++ [c])).call_duration =
          (compute_stats calls).call_duration ∧
        (compute_stats (calls ++ [c])).answered = (compute_stats calls).answered + 1) ∧
    (∀ calls : List OutCall,
      (compute_stats calls).call_duration =
        time_stats (pysorted ((calls.filter
          (fun c => c.status == "COMPLETAT" && decide (0 < c.call_time))).map
            (fun c => c.call_time)))) ∧
    (∀ (rows : List CdrRow) (r : CdrRow), r.answered = true → r.billsec = 0 →
      trend_call_duration (rows ++ [r]) = trend_call_duration rows ∧
        trend_answered_count (rows ++ [r]) = trend_answered_count rows + 1) ∧
    (∀ rows : List CdrRow,
      trend_call_duration rows =
        time_stats7 (pysorted ((rows.filter
          (fun r => r.answered && decide (0 < r.billsec))).map (fun r => r.billsec)))) := by
  refine ⟨?_, ?_, ?_, ?_⟩
  · intro calls c _hwf hstatus hct
    have hfa : (calls ++ [c]).filter (fun x => x.status == "COMPLETAT") =
        calls.filter (fun x => x.status == "COMPLETAT") ++ [c] := by
      rw [List.filter_append]
      simp [hstatus]
    constructor
    · simp only [compute_stats, hfa]
      rw [List.filter_append]
      simp [hct]
    · simp only [compute_stats, hfa]
      simp
  · intro calls
    simp only [compute_stats]
    rw [List.filter_filter]
    have hfun : (fun c : OutCall => decide (0 < c.call_time) && (c.status == "COMPLETAT")) =
        (fun c : OutCall => (c.status == "COMPLETAT") && decide (0 < c.call_time)) := by
      funext c
      exact Bool.and_comm _ _
    rw [hfun]
  · intro rows r hans hbill
    have hfa : (rows ++ [r]).filter (fun x => x.answered) =
        rows.filter (fun x => x.answered) ++ [r] := by
      rw [List.filter_append]
      simp [hans]
    constructor
    · unfold trend_call_duration trend_billsecs trend_answered
      rw [hfa, List.filter_append]
      simp [hbill]
    · unfold trend_answered_count trend_answered
      rw [hfa]
      simp
  · intro rows
    unfold trend_call_duration trend_billsecs trend_answered
    rw [List.filter_filter]
    have hfun : (fun r : CdrRow => decide (0 < r.billsec) && r.answered) =
        (fun r : CdrRow => r.answered && decide (0 < r.billsec)) := by
      funext r
      exact Bool.and_comm _ _
    rw [hfun]

/-- Witness for C10: appending a zero-duration answered call to a one-call list
increments the answered count and keeps the duration statistics. -/
theorem claim10_witness :
    ([sampleCallA, sampleCallB] : List OutCall).all oraHourOK = true ∧
    (compute_stats [sampleCallA, sampleCallB]).call_duration =
      (compute_stats [sampleCallA]).call_duration ∧
    (compute_stats [sampleCallA, sampleCallB]).answered =
      (compute_stats [sampleCallA]).answered + 1 := by
  have h := claim10_duration_population.1 [sampleCallA] sampleCallB (by decide) rfl rfl
  exact ⟨by decide, h.1, h.2⟩

/-! ## Claim C4: determinism and clock/timezone noninterference -/

/-- Sorting is invariant under permutation of the input. -/
theorem pysorted_eq_of_perm {l₁ l₂ : List ℤ} (h : l₁.Perm l₂) :
    pysorted l₁ = pysorted l₂ := by
  refine List.eq_of_perm_of_sorted ?_ (List.sorted_insertionSort _ l₁)
    (List.sorted_insertionSort _ l₂)
  exact (List.perm_insertionSort _ l₁).trans (h.trans (List.perm_insertionSort _ l₂).symm)

/-- The (status, hold, duration) content of the display list is the same
multiset for any two timezone offsets. -/
theorem callList_ckey_perm (lines : List String) (tz₁ tz₂ : ℤ) :
    ((callListOf lines tz₁).map ckey).Perm ((callListOf lines tz₂).map ckey) := by
  unfold callListOf sortCalls
  have hmid : ((((runLines lines).map (fun kv => finalizeCall kv.2)).map (mkOut tz₁)).map
        ckey) =
      ((((runLines lines).map (fun kv => finalizeCall kv.2)).map (mkOut tz₂)).map ckey) := by
    simp only [List.map_map]
    rfl
  have h1 := List.Perm.map ckey (List.perm_insertionSort
    (fun a b : OutCall => strLe b.ora a.ora = true)
    (((runLines lines).map (fun kv => finalizeCall kv.2)).map (mkOut tz₁)))
  have h2 := List.Perm.map ckey (List.perm_insertionSort
    (fun a b : OutCall => strLe b.ora a.ora = true)
    (((runLines lines).map (fun kv => finalizeCall kv.2)).map (mkOut tz₂)))
  exact h1.trans (hmid ▸ h2.symm)

theorem countP_ckey_eq {cl₁ cl₂ : List OutCall}
    (h : (cl₁.map ckey).Perm (cl₂.map ckey)) (p : String × ℤ × ℤ → Bool) :
    cl₁.countP (fun c => p (ckey c)) = cl₂.countP (fun c => p (ckey c)) := by
  have h2 := h.countP_eq p
  rwa [List.countP_map, List.countP_map] at h2

theorem filterMap_ckey_perm {cl₁ cl₂ : List OutCall}
    (h : (cl₁.map ckey).Perm (cl₂.map ckey)) (F : String × ℤ × ℤ → Option ℤ) :
    (cl₁.filterMap (fun c => F (ckey c))).Perm (cl₂.filterMap (fun c => F (ckey c))) := by
  have h2 := h.filterMap F
  rwa [List.filterMap_map, List.filterMap_map] at h2

theorem filter_map_eq_filterMap (p : OutCall → Bool) (f : OutCall → ℤ) (l : List OutCall) :
    (l.filter p).map f = l.filterMap (fun c => if p c then some (f c) else none) := by
  induction l with
  | nil => rfl
  | cons x xs ih =>
    by_cases hp : p x
    · simp [List.filter_cons, List.filterMap_cons, hp, ih]
    · simp [List.filter_cons, List.filterMap_cons, hp, ih]

/-- C4 counterexample: the queue-log pipeline output changes with the timezone
offset (the `ora` rendering shifts), and the CDR pipeline with a max-age limit
changes with the clock reading (the cutoff moves).  This refutes the claim that
both pipelines are independent of clock time and timezone. -/
theorem claim4_counterexample :
    (parse_queue_log ["10|C1|Q|A|ENTERQUEUE|1|0755"] 0).calls ≠
      (parse_queue_log ["10|C1|Q|A|ENTERQUEUE|1|0755"] 3600).calls ∧
    parse_master_csv [mkQueueRow "1000" "2024-01-15 10:30:00" "60" "50" "ANSWERED"]
        (some 1) 0 ≠
      parse_master_csv [mkQueueRow "1000" "2024-01-15 10:30:00" "60" "50" "ANSWERED"]
        (some 1) 10000000000 := by
  decide

/-- C4 (amended): each pipeline is a deterministic function of its input
together with the ambient clock and timezone; the CDR pipeline without a
max-age limit does not depend on the clock at all, and the queue-log pipeline's
status summary, totals and all non-hourly statistics do not depend on the
timezone (only the display times, their ordering and the hourly breakdown do). -/
theorem claim4_noninterference :
    (∀ (lines : List String) (tz₁ tz₂ : ℤ),
      (parse_queue_log lines tz₁).total = (parse_queue_log lines tz₂).total ∧
      (∀ st, (parse_queue_log lines tz₁).summary st =
        (parse_queue_log lines tz₂).summary st) ∧
      (parse_queue_log lines tz₁).stats.total = (parse_queue_log lines tz₂).stats.total ∧
      (parse_queue_log lines tz₁).stats.answered =
        (parse_queue_log lines tz₂).stats.answered ∧
      (parse_queue_log lines tz₁).stats.abandoned =
        (parse_queue_log lines tz₂).stats.abandoned ∧
      (parse_queue_log lines tz₁).stats.answer_rate =
        (parse_queue_log lines tz₂).stats.answer_rate ∧
      (parse_queue_log lines tz₁).stats.abandon_rate =
        (parse_queue_log lines tz₂).stats.abandon_rate ∧
      (parse_queue_log lines tz₁).stats.asa = (parse_queue_log lines tz₂).stats.asa ∧
      (parse_queue_log lines tz₁).stats.waited_over_30 =
        (parse_queue_log lines tz₂).stats.waited_over_30 ∧
      (parse_queue_log lines tz₁).stats.hold_answered =
        (parse_queue_log lines tz₂).stats.hold_answered ∧
      (parse_queue_log lines tz₁).stats.hold_abandoned =
        (parse_queue_log lines tz₂).stats.hold_abandoned ∧
      (parse_queue_log lines tz₁).stats.call_duration =
        (parse_queue_log lines tz₂).stats.call_duration) ∧
    (∀ (rows : List (List String)) (now₁ now₂ : ℤ),
      parse_master_csv rows none now₁ = parse_master_csv rows none now₂) := by
  constructor
  · intro lines tz₁ tz₂
    have hperm := callList_ckey_perm lines tz₁ tz₂
    have hlen : (callListOf lines tz₁).length = (callListOf lines tz₂).length := by
      have h2 := hperm.length_eq
      rwa [List.length_map, List.length_map] at h2
    have hcnt : ∀ p : String × ℤ × ℤ → Bool,
        (callListOf lines tz₁).countP (fun c => p (ckey c)) =
          (callListOf lines tz₂).countP (fun c => p (ckey c)) := countP_ckey_eq hperm
    have hansw : ((callListOf lines tz₁).filter (fun c => c.status == "COMPLETAT")).length =
        ((callListOf lines tz₂).filter (fun c => c.status == "COMPLETAT")).length := by
      rw [← List.countP_eq_length_filter, ← List.countP_eq_length_filter]
      exact hcnt (fun k => k.1 == "COMPLETAT")
    have habda : ((callListOf lines tz₁).filter (fun c => c.status == "ABANDONAT")).length =
        ((callListOf lines tz₂).filter (fun c => c.status == "ABANDONAT")).length := by
      rw [← List.countP_eq_length_filter, ← List.countP_eq_length_filter]
      exact hcnt (fun k => k.1 == "ABANDONAT")
    have hw30 : ((callListOf lines tz₁).filter
          (fun c => decide (30 < c.hold_time))).length =
        ((callListOf lines tz₂).filter (fun c => decide (30 < c.hold_time))).length := by
      rw [← List.countP_eq_length_filter, ← List.countP_eq_length_filter]
      exact hcnt (fun k => decide (30 < k.2.1))
    have hholdA : pysorted (((callListOf lines tz₁).filter
          (fun c => c.status == "COMPLETAT")).map (fun c => c.hold_time)) =
        pysorted (((callListOf lines tz₂).filter
          (fun c => c.status == "COMPLETAT")).map (fun c => c.hold_time)) := by
      rw [filter_map_eq_filterMap, filter_map_eq_filterMap]
      exact pysorted_eq_of_perm (filterMap_ckey_perm hperm
        (fun k => if k.1 == "COMPLETAT" then some k.2.1 else none))
    have hholdB : pysorted (((callListOf lines tz₁).filter
          (fun c => c.status == "ABANDONAT")).map (fun c => c.hold_time)) =
        pysorted (((callListOf lines tz₂).filter
          (fun c => c.status == "ABANDONAT")).map (fun c => c.hold_time)) := by
      rw [filter_map_eq_filterMap, filter_map_eq_filterMap]
      exact pysorted_eq_of_perm (filterMap_ckey_perm hperm
        (fun k => if k.1 == "ABANDONAT" then some k.2.1 else none))
    have hct : pysorted ((((callListOf lines tz₁).filter
          (fun c => c.status == "COMPLETAT")).filter
            (fun c => decide (0 < c.call_time))).map (fun c => c.call_time)) =
        pysorted ((((callListOf lines tz₂).filter
          (fun c => c.status == "COMPLETAT")).filter
            (fun c => decide (0 < c.call_time))).map (fun c => c.call_time)) := by
      rw [List.filter_filter, List.filter_filter, filter_map_eq_filterMap,
        filter_map_eq_filterMap]
      exact pysorted_eq_of_perm (filterMap_ckey_perm hperm
        (fun k => if decide (0 < k.2.2) && (k.1 == "COMPLETAT") then some k.2.2 else none))
    refine ⟨?_, ?_, ?_, ?_, ?_, ?_, ?_, ?_, ?_, ?_, ?_, ?_⟩
    · simp only [parse_queue_log]
      exact hlen
    · intro st
      simp only [parse_queue_log]
      exact hcnt (fun k => k.1 == st)
    · simp only [parse_queue_log, compute_stats]
      exact hlen
    · simp only [parse_queue_log, compute_stats]
      exact hansw
    · simp only [parse_queue_log, compute_stats]
      exact habda
    · simp only [parse_queue_log, compute_stats]
      rw [hlen, hansw]
    · simp only [parse_queue_log, compute_stats]
      rw [hlen, habda]
    · simp only [parse_queue_log, compute_stats]
      rw [hholdA]
    · simp only [parse_queue_log, compute_stats]
      exact hw30
    · simp only [parse_queue_log, compute_stats]
      rw [hholdA]
    · simp only [parse_queue_log, compute_stats]
      rw [hholdB]
    · simp only [parse_queue_log, compute_stats]
      rw [hct]
  · intro rows now₁ now₂
    rfl

/-! ## Claim C3: churn detection -/

theorem mem_dedupAux : ∀ (l seen : List String) (x : String),
    x ∈ dedupAux seen l ↔ (x ∈ l ∧ x ∉ seen) := by
  intro l
  induction l with
  | nil =>
    intro seen x
    simp [dedupAux]
  | cons y ys ih =>
    intro seen x
    have hstep : dedupAux seen (y :: ys) =
        if seen.contains y = true then dedupAux seen ys
        else y :: dedupAux (y :: seen) ys := rfl
    by_cases hy : seen.contains y = true
    · have hymem : y ∈ seen := by simpa using hy
      rw [hstep, if_pos hy]
      rw [ih]
      constructor
      · rintro ⟨hx, hnx⟩
        exact ⟨List.mem_cons_of_mem _ hx, hnx⟩
      · rintro ⟨hx, hnx⟩
        rcases List.mem_cons.mp hx with rfl | hx2
        · exact absurd hymem hnx
        · exact ⟨hx2, hnx⟩
    · have hynmem : y ∉ seen := by
        intro hmem
        exact hy (by simpa using hmem)
      rw [hstep, if_neg hy]
      constructor
      · intro hx
        rcases List.mem_cons.mp hx with rfl | hx2
        · exact ⟨List.mem_cons_self _ _, hynmem⟩
        · obtain ⟨h1, h2⟩ := (ih (y :: seen) x).mp hx2
          have hxny : x ∉ seen := fun hc => h2 (List.mem_cons_of_mem _ hc)
          exact ⟨List.mem_cons_of_mem _ h1, hxny⟩
      · rintro ⟨hx, hnx⟩
        rcases List.mem_cons.mp hx with rfl | hx2
        · exact List.mem_cons_self _ _
        · by_cases hxy : x = y
          · subst hxy
            exact List.mem_cons_self _ _
          · refine List.mem_cons_of_mem _ ((ih (y :: seen) x).mpr ⟨hx2, ?_⟩)
            intro hc
            rcases List.mem_cons.mp hc with hc | hc
            · exact hxy hc
            · exact hnx hc

theorem mem_pyDedupKeys (l : List String) (x : String) :
    x ∈ pyDedupKeys l ↔ x ∈ l := by
  unfold pyDedupKeys
  rw [mem_dedupAux]
  simp

/-- Inversion of a churn entry: the entry names its source, which has at least
5 calls, old-window count at least 3 and recent-window count 0. -/
theorem churnEntry_some_inv {rows : List CdrRow} {aw rws ows : List String}
    {a : String} {e : ChurnInfo} (h : churnEntry rows aw rws ows a = some e) :
    e.src = a ∧ ¬ (rows.filter (fun r => r.src == a)).length < 5 ∧
      3 ≤ ((ows.map (srcWeeklyCount (rows.filter (fun r => r.src == a)))).sum) ∧
      ((rws.map (srcWeeklyCount (rows.filter (fun r => r.src == a)))).sum) = 0 := by
  unfold churnEntry at h
  by_cases hl : (rows.filter (fun r => r.src == a)).length < 5
  · rw [if_pos hl] at h
    exact Option.noConfusion h
  · rw [if_neg hl] at h
    by_cases hcond : 3 ≤ ((ows.map (srcWeeklyCount (rows.filter
        (fun r => r.src == a)))).sum) ∧
        ((rws.map (srcWeeklyCount (rows.filter (fun r => r.src == a)))).sum) = 0
    · rw [if_pos hcond] at h
      obtain rfl := (Option.some.injEq _ _).mp h.symm
      exact ⟨rfl, hl, hcond.1, hcond.2⟩
    · rw [if_neg hcond] at h
      exact Option.noConfusion h

/-- Every churn-report entry comes from the untruncated churn list. -/
theorem churn_report_subset {rows : List CdrRow} {e : ChurnInfo}
    (h : e ∈ churn_report rows) : e ∈ trends_churn rows := by
  unfold churn_report at h
  have h1 := List.mem_of_mem_take h
  exact (List.perm_insertionSort _ _).mem_iff.mp h1

/-- C3 counterexample: in the 8-week scenario source 1000 has 4 calls in the
old window and 0 in the recent window, yet the churn list is empty — the claim
fails because sources with fewer than 5 total calls are never classified. -/
theorem claim3_counterexample :
    ((oldWeeks (allWeeks churnParsedB)).map
      (srcWeeklyCount (churnParsedB.filter (fun r => r.src == "1000")))).sum = 4 ∧
    ((recentWeeks (allWeeks churnParsedB)).map
      (srcWeeklyCount (churnParsedB.filter (fun r => r.src == "1000")))).sum = 0 ∧
    trends_churn churnParsedB = [] ∧ churn_report churnParsedB = [] := by
  decide

/-- C3 (amended): a source with at least 5 total calls, old-window count at
least 3 (hence in particular 4) and recent-window count 0 appears in the
(untruncated) churn list, and a source with old-window count 2 never appears in
the churn list nor in the truncated churn report. -/
theorem claim3_churn_membership :
    (∀ (rows : List CdrRow) (src : String),
      5 ≤ (rows.filter (fun r => r.src == src)).length →
      3 ≤ ((oldWeeks (allWeeks rows)).map
        (srcWeeklyCount (rows.filter (fun r => r.src == src)))).sum →
      ((recentWeeks (allWeeks rows)).map
        (srcWeeklyCount (rows.filter (fun r => r.src == src)))).sum = 0 →
      ∃ e ∈ trends_churn rows, e.src = src) ∧
    (∀ (rows : List CdrRow) (src : String),
      ((oldWeeks (allWeeks rows)).map
        (srcWeeklyCount (rows.filter (fun r => r.src == src)))).sum = 2 →
      (∀ e ∈ trends_churn rows, e.src ≠ src) ∧
        (∀ e ∈ churn_report rows, e.src ≠ src)) := by
  constructor
  · intro rows src h5 hold hrec
    have hne : rows.filter (fun r => r.src == src) ≠ [] := by
      intro hnil
      rw [hnil] at h5
      simp at h5
    obtain ⟨r, hr⟩ := List.exists_mem_of_ne_nil _ hne
    have hrs : r.src = src := by simpa using (List.mem_filter.mp hr).2
    have hsrcmem : src ∈ pyDedupKeys (rows.map (fun r2 => r2.src)) := by
      rw [mem_pyDedupKeys]
      exact hrs ▸ List.mem_map_of_mem _ (List.mem_filter.mp hr).1
    have hf : churnEntry rows (allWeeks rows) (recentWeeks (allWeeks rows))
        (oldWeeks (allWeeks rows)) src = some
          { src := src,
            total_calls := (rows.filter (fun r2 => r2.src == src)).length,
            trend := linear_trend (weeklyCountsFor (rows.filter
              (fun r2 => r2.src == src)) (allWeeks rows)),
            avg_wait := pyround ((((rows.filter (fun r2 => r2.src == src)).map
              (fun c => c.wait_time)).sum : ℚ) /
                (rows.filter (fun r2 => r2.src == src)).length),
            first_call := pyminStr ((rows.filter (fun r2 => r2.src == src)).map
              (fun c => c.date)),
            last_call := pymaxStr ((rows.filter (fun r2 => r2.src == src)).map
              (fun c => c.date)),
            old_calls := ((oldWeeks (allWeeks rows)).map
              (srcWeeklyCount (rows.filter (fun r2 => r2.src == src)))).sum,
            recent_calls := ((recentWeeks (allWeeks rows)).map
              (srcWeeklyCount (rows.filter (fun r2 => r2.src == src)))).sum } := by
      unfold churnEntry
      rw [if_neg (by omega), if_pos ⟨hold, hrec⟩]
    refine ⟨_, List.mem_filterMap.mpr ⟨src, hsrcmem, hf⟩, rfl⟩
  · intro rows src h2
    have hmain : ∀ e ∈ trends_churn rows, e.src ≠ src := by
      intro e he hes
      obtain ⟨a, _, hfa⟩ := List.mem_filterMap.mp he
      obtain ⟨hea, _, hold3, _⟩ := churnEntry_some_inv hfa
      rw [hea] at hes
      subst hes
      omega
    exact ⟨hmain, fun e he => hmain e (churn_report_subset he)⟩

/-- Witness for C3 in the 12-week scenario: source 1000 has 5 calls, 4 in the
old window and none in the recent window, and appears in the churn list. -/
theorem claim3_witness :
    5 ≤ (churnParsedA.filter (fun r => r.src == "1000")).length ∧
    3 ≤ ((oldWeeks (allWeeks churnParsedA)).map
      (srcWeeklyCount (churnParsedA.filter (fun r => r.src == "1000")))).sum ∧
    ((recentWeeks (allWeeks churnParsedA)).map
      (srcWeeklyCount (churnParsedA.filter (fun r => r.src == "1000")))).sum = 0 ∧
    ∃ e ∈ trends_churn churnParsedA, e.src = "1000" :=
  ⟨by decide, by decide, by decide,
    claim3_churn_membership.1 churnParsedA "1000" (by decide) (by decide) (by decide)⟩

end Cheltuieli
